import Mathlib

/-!
Verification of the skyportd container-lifecycle daemon.

This file gives a shallow embedding, in Lean 4, of the parts of skyportd
that the specification's testable properties talk about:

* the `StateStore` (the `readStates` / `writeStates` / `updateState`
  utilities persisting the `volumeId → {state, containerId}` table),
* the `createContainer` provisioning pipeline (mkdir, image pull, HTTP
  response, container creation, install-script download, variable
  substitution, container start, state transitions),
* the `deleteContainer` / `deleteInstance` delete handlers,
* the `redeployContainer` / `reinstallContainer` handlers,
* the `replaceVariables` / `downloadInstallScripts` / `downloadFile`
  helpers,
* the WebSocket STATS streaming loop (`setupStatsStreaming`) and the
  volume-size traversal (`getVolumeSize` / `calculateDirectorySize`).

External effects (Docker calls, the network, the file system) are modelled
by explicit outcome oracles; each handler is embedded as a pure function
from its request, an oracle and the current persisted table to a trace of
observable events, the resulting table and the HTTP response it sends.
JavaScript-specific semantics that matter (for instance `undefined + 1 =
NaN` in the directory-size recursion) are modelled explicitly.
-/

set_option linter.unusedVariables false

/- ### Lifecycle states and the persisted state table

Source: the state utilities of the instance router
(`readStates` / `writeStates` / `updateState`).  The persisted table is a
JSON object keyed by volume id; we model it as an association list that
keeps the JS object's insertion order, with `setEntry` implementing
`states[volumeId] = {state, containerId}` (overwrite in place if the key
exists, append otherwise). -/

inductive LState where
  | INSTALLING
  | READY
  | FAILED
deriving DecidableEq, Repr

structure StateRecord where
  state : LState
  containerId : Option String
deriving DecidableEq, Repr

def StatesTable : Type := List (String × StateRecord)

def getEntry : List (String × StateRecord) → String → Option StateRecord
  | [], _ => none
  | (k, r) :: rest, v => if k = v then some r else getEntry rest v

def setEntry : List (String × StateRecord) → String → StateRecord → List (String × StateRecord)
  | [], v, r => [(v, r)]
  | (k, r0) :: rest, v, r =>
      if k = v then (k, r) :: rest else (k, r0) :: setEntry rest v r

/-- `updateState(volumeId, state, containerId = null)`: reads the whole
table, replaces the entry for `volumeId` with `{state, containerId}`, and
writes the whole table back.  The JS default `containerId = null` is
rendered by call sites passing `none` explicitly. -/
def updateState (t : List (String × StateRecord)) (volumeId : String)
    (state : LState) (containerId : Option String) : List (String × StateRecord) :=
  setEntry t volumeId ⟨state, containerId⟩

/- ### Serialization and the crash model of persistence (writeStates)

`writeStates` does `fs.writeFile(statesFilePath, JSON.stringify(states,
null, 2))`: a single direct write to the final path, no temporary file and
no rename.  We model the serialized text (indentation omitted; only its
shape matters for the theorems), the two file slots the discipline could
touch, and the set of on-disk contents reachable if the process crashes at
any byte boundary during a write (a write truncates, then appends). -/

def quoteStr (s : List Char) : List Char := '"' :: s ++ ['"']

def serializeLState : LState → List Char
  | .INSTALLING => quoteStr (("INSTALLING").toList)
  | .READY => quoteStr (("READY").toList)
  | .FAILED => quoteStr (("FAILED").toList)

def serializeCid : Option String → List Char
  | none => ("null").toList
  | some c => quoteStr c.toList

def serializeRecord (r : StateRecord) : List Char :=
  '{' :: (("\"state\":").toList ++ serializeLState r.state
      ++ (",\"containerId\":").toList ++ serializeCid r.containerId) ++ ['}']

def serializeEntries : List (String × StateRecord) → List Char
  | [] => []
  | [(k, r)] => quoteStr k.toList ++ [':'] ++ serializeRecord r
  | (k, r) :: rest =>
      quoteStr k.toList ++ [':'] ++ serializeRecord r ++ [','] ++ serializeEntries rest

def serializeStates (t : List (String × StateRecord)) : List Char :=
  '{' :: serializeEntries t ++ ['}']

inductive StoreTarget where
  | statesFile
  | tmpFile
deriving DecidableEq, Repr

inductive FsOp where
  | writeFile (tgt : StoreTarget) (data : List Char)
  | renameFile (src dst : StoreTarget)
deriving DecidableEq, Repr

structure StoreFs where
  statesFile : Option (List Char)
  tmpFile : Option (List Char)
deriving DecidableEq, Repr

def readTarget (fs : StoreFs) : StoreTarget → Option (List Char)
  | .statesFile => fs.statesFile
  | .tmpFile => fs.tmpFile

def setTarget (fs : StoreFs) (tgt : StoreTarget) (c : Option (List Char)) : StoreFs :=
  match tgt with
  | .statesFile => { fs with statesFile := c }
  | .tmpFile => { fs with tmpFile := c }

def applyFsOp (fs : StoreFs) : FsOp → StoreFs
  | .writeFile tgt data => setTarget fs tgt (some data)
  | .renameFile src dst => setTarget (setTarget fs dst (readTarget fs src)) src none

/-- Contents reachable if the process crashes while one operation is in
flight: a plain write truncates and then appends, so every prefix of the
new data is a possible on-disk state; a rename is atomic, so only the
before and after states are possible. -/
def crashResults (fs : StoreFs) : FsOp → List StoreFs
  | .writeFile tgt data =>
      (List.range (data.length + 1)).map (fun k => setTarget fs tgt (some (data.take k)))
  | .renameFile src dst => [fs, applyFsOp fs (.renameFile src dst)]

def runOps (fs : StoreFs) : List FsOp → StoreFs
  | [] => fs
  | op :: ops => runOps (applyFsOp fs op) ops

def crashStates (fs : StoreFs) : List FsOp → List StoreFs
  | [] => [fs]
  | op :: ops => fs :: crashResults fs op ++ crashStates (applyFsOp fs op) ops

/-- `writeStates(states)`: one direct `fs.writeFile` of the serialized
table to the states file — no temporary file, no rename. -/
def writeStates (states : List (String × StateRecord)) : List FsOp :=
  [.writeFile .statesFile (serializeStates states)]

/-- The write-then-rename discipline the specification prescribes for the
StateStore, stated in the spec's words for comparison with `writeStates`
(this is how the repository's own `saveStats` persists system stats, but
not how `writeStates` persists the state table). -/
def writeStatesSpec (states : List (String × StateRecord)) : List FsOp :=
  [.writeFile .tmpFile (serializeStates states), .renameFile .tmpFile .statesFile]

/- ### Delete handlers

`deleteContainer` (instance router): `container.remove()`, responding 200
on success and `500 {message: err.message}` on ANY error — including the
not-found error Docker raises when the container is already gone.
`deleteInstance` (utils/Docker/DeleteInstance.js): inspects the container
(not-found here also errors), removes it with force, then `fs.rmSync` of
the volume directory with `force: true` (which does tolerate an absent
directory), with the same catch-all 500. -/

inductive DockerError where
  | notFound
  | serverError (msg : String)
deriving DecidableEq, Repr

def DockerError.message : DockerError → String
  | .notFound => "no such container"
  | .serverError m => m

structure DeleteEnv where
  removeResult : Except DockerError Unit

def deleteContainer (env : DeleteEnv) : Nat × String :=
  match env.removeResult with
  | .ok _ => (200, ("Container removed successfully"))
  | .error e => (500, e.message)

structure DeleteInstanceEnv where
  inspectResult : Except DockerError String
  removeResult : Except DockerError Unit

def deleteInstance (env : DeleteInstanceEnv) (idGiven : Bool) : Nat × String :=
  if idGiven = false then (400, ("Container ID is required"))
  else
    match env.inspectResult with
    | .error e => (500, e.message)
    | .ok _name =>
        match env.removeResult with
        | .error e => (500, e.message)
        | .ok _ => (200, ("Container and associated volume deleted successfully"))

/- ### The STATS telemetry channel (index.js, setupStatsStreaming)

`setupStatsStreaming` first runs `await fetchStats()` (one stats poll),
and only after that await resumes does it run `setInterval(fetchStats,
2000)` and register `ws.on('close', () => clearInterval(statsInterval))`.
The close handler is therefore NOT in place while the initial fetch is
awaited: a `close` event arriving in that window fires with no listener
(a WebSocket emits `close` once), and when the suspended setup resumes
it still installs the interval — which nothing will ever clear.  We
embed this as a step relation: `fetchDone` is the initial await
resuming, which installs the interval and registers the close handler;
`tick` runs `fetchStats` whenever the interval is installed (Node fires
cleared intervals never, installed ones regardless of socket state);
`close` runs the close handler only if it has been registered. -/

structure StatsChannel where
  setupDone : Bool
  timerActive : Bool
  polls : Nat
deriving DecidableEq, Repr

inductive WsEvent where
  | fetchDone
  | tick
  | close
deriving DecidableEq, Repr

/-- Channel state on entry to `setupStatsStreaming`: the initial
`await fetchStats()` has polled once and is pending; neither the
interval nor the close handler is installed yet. -/
def setupStatsStreaming : StatsChannel :=
  { setupDone := false, timerActive := false, polls := 1 }

def statsStep (s : StatsChannel) : WsEvent → StatsChannel
  | .fetchDone =>
      if s.setupDone then s else { s with setupDone := true, timerActive := true }
  | .tick => if s.timerActive then { s with polls := s.polls + 1 } else s
  | .close => if s.setupDone then { s with timerActive := false } else s

def statsRun (s : StatsChannel) (evs : List WsEvent) : StatsChannel :=
  evs.foldl statsStep s

/- ### Helper lemmas (shared) -/

theorem getEntry_setEntry_ne (t : List (String × StateRecord)) (v w : String)
    (r : StateRecord) (h : w ≠ v) : getEntry (setEntry t v r) w = getEntry t w := by
  induction t with
  | nil => simp [setEntry, getEntry, Ne.symm h]
  | cons p rest ih =>
      obtain ⟨k, r0⟩ := p
      by_cases hk : k = v
      · subst hk
        simp [setEntry, getEntry, Ne.symm h]
      · simp [setEntry, getEntry, hk]
        by_cases hw : k = w
        · simp [hw]
        · simp [hw, ih]

theorem getEntry_setEntry_self (t : List (String × StateRecord)) (v : String)
    (r : StateRecord) : getEntry (setEntry t v r) v = some r := by
  induction t with
  | nil => simp [setEntry, getEntry]
  | cons p rest ih =>
      obtain ⟨k, r0⟩ := p
      by_cases hk : k = v
      · subst hk
        simp [setEntry, getEntry]
      · simp [setEntry, getEntry, hk, ih]

theorem statsRun_absorbed (s : StatsChannel) (evs : List WsEvent)
    (hd : s.setupDone = true) (ht : s.timerActive = false) : statsRun s evs = s := by
  induction evs generalizing s with
  | nil => rfl
  | cons e rest ih =>
      have hstep : statsStep s e = s := by
        cases e with
        | fetchDone => simp [statsStep, hd]
        | tick => simp [statsStep, ht]
        | close =>
            cases s with
            | mk a b c => simp_all [statsStep]
      show statsRun (statsStep s e) rest = s
      rw [hstep]
      exact ih s hd ht

theorem statsRun_ticks (k : Nat) :
    ∀ s : StatsChannel, s.timerActive = true →
      statsRun s (List.replicate k WsEvent.tick) = { s with polls := s.polls + k } := by
  induction k with
  | zero =>
      intro s ht
      show s = { s with polls := s.polls + 0 }
      cases s with
      | mk a b c => rfl
  | succ m ih =>
      intro s ht
      rw [List.replicate_succ]
      show statsRun (statsStep s WsEvent.tick) (List.replicate m WsEvent.tick) = _
      have hstep : statsStep s WsEvent.tick = { s with polls := s.polls + 1 } := by
        simp [statsStep, ht]
      rw [hstep, ih { s with polls := s.polls + 1 } (by simpa using ht)]
      cases s with
      | mk a b c =>
          simp only [StatsChannel.mk.injEq, and_true, true_and]
          omega

/- ### Claim theorems (first batch) -/

/-- Claim C10: for every volume id `v`, state `s`, optional container id
`c`, and every other id `w ≠ v`, a completed `updateState v s c` leaves
the record for `w` unchanged, and the entry for `v` becomes exactly
`{state := s, containerId := c}` (with `c = none` rendering the JS call
sites that omit the argument, including the FAILED transitions). -/
theorem updateState_frame (t : List (String × StateRecord)) (v w : String)
    (s : LState) (c : Option String) (h : w ≠ v) :
    getEntry (updateState t v s c) w = getEntry t w ∧
    getEntry (updateState t v s c) v = some ⟨s, c⟩ :=
  ⟨getEntry_setEntry_ne t v w ⟨s, c⟩ h, getEntry_setEntry_self t v ⟨s, c⟩⟩

theorem updateState_frame_witness :
    ("w2") ≠ ("w1") ∧
    (getEntry (updateState [(("w2"), ⟨.READY, some ("abc")⟩)] ("w1") .FAILED none) ("w2") =
        getEntry [(("w2"), ⟨.READY, some ("abc")⟩)] ("w2") ∧
      getEntry (updateState [(("w2"), ⟨.READY, some ("abc")⟩)] ("w1") .FAILED none) ("w1") =
        some ⟨.FAILED, none⟩) :=
  ⟨by decide, updateState_frame [(("w2"), ⟨.READY, some ("abc")⟩)] ("w1") ("w2") .FAILED none
    (by decide)⟩

/-- Claim C9 counterexample: a connection that closes while the initial
`await fetchStats()` is still pending fires `close` before the close
handler is registered; the setup then resumes and installs the interval
anyway, and nothing ever clears it.  Concretely, two ticks after such a
close both still poll (the count rises from 1 to 3), exceeding the
claim's grace of at most one further tick — and the polls continue
unboundedly. -/
theorem setupStatsStreaming_close_during_fetch_cex :
    (statsRun setupStatsStreaming [WsEvent.close]).polls = 1 ∧
    (statsRun setupStatsStreaming
      [WsEvent.close, WsEvent.fetchDone, WsEvent.tick, WsEvent.tick]).polls = 3 := by
  refine ⟨rfl, rfl⟩

/-- Claim C9 (amended): once `setupStatsStreaming` has completed — the
initial awaited fetch resumed and `ws.on('close', …)` registered —
closing the connection cancels the interval and no later event adds a
poll.  But a close that arrives during the initial awaited fetch fires
before the handler exists, so the interval installed afterwards is
never cleared: every one of the `k` subsequent ticks still polls. -/
theorem setupStatsStreaming_close_cancellation_amended :
    (∀ pre post : List WsEvent, (statsRun setupStatsStreaming pre).setupDone = true →
      (statsRun setupStatsStreaming (pre ++ WsEvent.close :: post)).polls =
        (statsRun setupStatsStreaming (pre ++ [WsEvent.close])).polls) ∧
    (∀ k : Nat,
      (statsRun setupStatsStreaming
        ([WsEvent.close, WsEvent.fetchDone] ++ List.replicate k WsEvent.tick)).polls =
      1 + k) := by
  constructor
  · intro pre post hd
    have h1 : statsRun setupStatsStreaming (pre ++ WsEvent.close :: post) =
        statsRun (statsStep (statsRun setupStatsStreaming pre) .close) post := by
      simp [statsRun, List.foldl_append]
    have h2 : statsRun setupStatsStreaming (pre ++ [WsEvent.close]) =
        statsStep (statsRun setupStatsStreaming pre) .close := by
      simp [statsRun, List.foldl_append]
    rw [h1, h2, statsRun_absorbed _ post (by simp [statsStep, hd]) (by simp [statsStep, hd])]
  · intro k
    have h1 : statsRun setupStatsStreaming
        ([WsEvent.close, WsEvent.fetchDone] ++ List.replicate k WsEvent.tick) =
        statsRun (statsRun setupStatsStreaming [WsEvent.close, WsEvent.fetchDone])
          (List.replicate k WsEvent.tick) := by
      simp [statsRun, List.foldl_append]
    have h0 : statsRun setupStatsStreaming [WsEvent.close, WsEvent.fetchDone] =
        { setupDone := true, timerActive := true, polls := 1 } := rfl
    rw [h1, h0, statsRun_ticks k { setupDone := true, timerActive := true, polls := 1 } rfl]

theorem setupStatsStreaming_close_cancellation_amended_witness :
    (statsRun setupStatsStreaming [WsEvent.fetchDone]).setupDone = true ∧
    (statsRun setupStatsStreaming
        ([WsEvent.fetchDone] ++ WsEvent.close :: [WsEvent.tick, WsEvent.tick])).polls =
      (statsRun setupStatsStreaming ([WsEvent.fetchDone] ++ [WsEvent.close])).polls :=
  ⟨rfl, setupStatsStreaming_close_cancellation_amended.1 [WsEvent.fetchDone]
    [WsEvent.tick, WsEvent.tick] rfl⟩

/-- Claim C2 counterexample: `writeStates` is a single direct write, so a
crash mid-write can leave the states file truncated.  Concretely, with a
previously persisted one-entry table and an update in flight, the crash
state after the truncation step holds an empty file — neither the
previous valid table nor the new one, refuting the claimed atomic
write-then-rename discipline. -/
theorem writeStates_not_atomic_cex :
    ¬ (∀ c ∈ crashStates
          ⟨some (serializeStates [(("w1"), ⟨.READY, some ("c1")⟩)]), none⟩
          (writeStates [(("w1"), ⟨.FAILED, none⟩)]),
        c.statesFile = some (serializeStates [(("w1"), ⟨.READY, some ("c1")⟩)]) ∨
        c.statesFile = some (serializeStates [(("w1"), ⟨.FAILED, none⟩)])) := by
  decide

/-- Claim C2 (amended): `writeStates` persists the table with one direct
`fs.writeFile` to the stored path — no temporary file and no rename — so
a crash between the start of the write and its completion can leave a
truncated table (for instance the empty file, which is no table's
serialization); the write-then-rename discipline the spec prescribes
(`writeStatesSpec`, as used by the repository's `saveStats` for system
stats, but not by the StateStore) would indeed leave either the previous
or the new table at every crash point. -/
theorem writeStates_direct_write_amended (t0 t1 : List (String × StateRecord))
    (fs0 : StoreFs) (h : fs0.statesFile = some (serializeStates t0)) :
    writeStates t1 = [FsOp.writeFile .statesFile (serializeStates t1)] ∧
    (runOps fs0 (writeStates t1)).statesFile = some (serializeStates t1) ∧
    (∃ c ∈ crashStates fs0 (writeStates t1), c.statesFile = some []) ∧
    (∀ t : List (String × StateRecord), serializeStates t ≠ []) ∧
    (∀ c ∈ crashStates fs0 (writeStatesSpec t1),
        c.statesFile = some (serializeStates t0) ∨
        c.statesFile = some (serializeStates t1)) := by
  refine ⟨rfl, ?_, ?_, ?_, ?_⟩
  · simp [writeStates, runOps, applyFsOp, setTarget]
  · refine ⟨setTarget fs0 .statesFile (some []), ?_, by simp [setTarget]⟩
    have h0 : setTarget fs0 .statesFile (some []) ∈
        crashResults fs0 (.writeFile .statesFile (serializeStates t1)) := by
      simp only [crashResults, List.mem_map, List.mem_range]
      exact ⟨0, by omega, by simp⟩
    simp only [writeStates, crashStates]
    exact List.mem_cons_of_mem _ (List.mem_append.mpr (Or.inl h0))
  · intro t
    simp [serializeStates]
  · intro c hc
    simp only [writeStatesSpec, crashStates] at hc
    rcases List.mem_cons.mp hc with rfl | hc
    · exact Or.inl h
    rcases List.mem_append.mp hc with hc | hc
    · simp only [crashResults, List.mem_map, List.mem_range] at hc
      obtain ⟨k, -, hk⟩ := hc
      cases hk
      exact Or.inl (by simp [setTarget, h])
    rcases List.mem_cons.mp hc with rfl | hc
    · exact Or.inl (by simp [applyFsOp, setTarget, h])
    rcases List.mem_append.mp hc with hc | hc
    · simp only [crashResults] at hc
      rcases List.mem_cons.mp hc with rfl | hc
      · exact Or.inl (by simp [applyFsOp, setTarget, h])
      rcases List.mem_cons.mp hc with rfl | hc
      · exact Or.inr (by simp [applyFsOp, setTarget, readTarget])
      · cases hc
    · rcases List.mem_singleton.mp hc with rfl
      exact Or.inr (by simp [applyFsOp, setTarget, readTarget])

theorem writeStates_direct_write_amended_witness :
    (StoreFs.mk (some (serializeStates [(("w1"), ⟨.READY, some ("c1")⟩)])) none).statesFile =
        some (serializeStates [(("w1"), ⟨.READY, some ("c1")⟩)]) ∧
    (writeStates [(("w1"), ⟨.FAILED, none⟩)] =
        [FsOp.writeFile .statesFile (serializeStates [(("w1"), ⟨.FAILED, none⟩)])] ∧
      (runOps (StoreFs.mk (some (serializeStates [(("w1"), ⟨.READY, some ("c1")⟩)])) none)
          (writeStates [(("w1"), ⟨.FAILED, none⟩)])).statesFile =
        some (serializeStates [(("w1"), ⟨.FAILED, none⟩)]) ∧
      (∃ c ∈ crashStates (StoreFs.mk (some (serializeStates [(("w1"), ⟨.READY, some ("c1")⟩)])) none)
          (writeStates [(("w1"), ⟨.FAILED, none⟩)]), c.statesFile = some []) ∧
      (∀ t : List (String × StateRecord), serializeStates t ≠ []) ∧
      (∀ c ∈ crashStates (StoreFs.mk (some (serializeStates [(("w1"), ⟨.READY, some ("c1")⟩)])) none)
          (writeStatesSpec [(("w1"), ⟨.FAILED, none⟩)]),
        c.statesFile = some (serializeStates [(("w1"), ⟨.READY, some ("c1")⟩)]) ∨
        c.statesFile = some (serializeStates [(("w1"), ⟨.FAILED, none⟩)]))) :=
  ⟨rfl, writeStates_direct_write_amended [(("w1"), ⟨.READY, some ("c1")⟩)]
    [(("w1"), ⟨.FAILED, none⟩)]
    (StoreFs.mk (some (serializeStates [(("w1"), ⟨.READY, some ("c1")⟩)])) none) rfl⟩

/-- Claim C3 counterexample: a second delete, when the container is
already gone, hits the runtime's not-found error, and both delete
implementations report it as a 500 error response rather than
succeeding — `deleteContainer` from the remove error, `deleteInstance`
already from the inspect error. -/
theorem delete_not_idempotent_cex :
    (deleteContainer ⟨Except.error DockerError.notFound⟩).1 = 500 ∧
    (deleteContainer ⟨Except.error DockerError.notFound⟩).1 ≠ 200 ∧
    (deleteInstance ⟨Except.error DockerError.notFound, Except.ok ()⟩ true).1 = 500 := by
  decide

/-- Claim C3 (amended): delete is not idempotent: it responds 200 exactly
when the runtime calls succeed, and reports any failure — including the
not-found raised when the container was already removed — as a 500
response carrying the error message (only the volume directory removal,
`fs.rmSync` with `force: true`, tolerates an already-absent target). -/
theorem delete_error_reporting_amended :
    (∀ e : DockerError, deleteContainer ⟨Except.error e⟩ = (500, e.message)) ∧
    deleteContainer ⟨Except.ok ()⟩ = (200, ("Container removed successfully")) ∧
    (∀ e : DockerError, ∀ r : Except DockerError Unit,
        deleteInstance ⟨Except.error e, r⟩ true = (500, e.message)) ∧
    (∀ e : DockerError, ∀ n : String,
        deleteInstance ⟨Except.ok n, Except.error e⟩ true = (500, e.message)) ∧
    (∀ n : String, deleteInstance ⟨Except.ok n, Except.ok ()⟩ true =
        (200, ("Container and associated volume deleted successfully"))) := by
  refine ⟨fun e => rfl, rfl, fun e r => rfl, fun e n => rfl, fun n => rfl⟩

/- ### Volume size traversal (index.js: getVolumeSize / calculateDirectorySize)

`calculateDirectorySize(directoryPath, currentDepth)` stops with 0 when
`currentDepth >= 500`, otherwise sums file sizes and recurses into
subdirectories with `currentDepth + 1`.  However `getVolumeSize` invokes
it as `calculateDirectorySize(volumePath)` — with no second argument — so
`currentDepth` is `undefined`; in JavaScript `undefined + 1` is `NaN`,
`NaN + 1` is `NaN`, and both `undefined >= 500` and `NaN >= 500` are
`false`.  We model the depth counter with these JavaScript semantics. -/

inductive JsDepth where
  | undef
  | nan
  | num (n : Nat)
deriving DecidableEq, Repr

/-- JavaScript `currentDepth + 1`: adding to `undefined` or `NaN` gives `NaN`. -/
def jsAddOne : JsDepth → JsDepth
  | .num n => .num (n + 1)
  | _ => .nan

/-- JavaScript `currentDepth >= 500`: comparisons against `undefined`/`NaN` are `false`. -/
def jsGeCap : JsDepth → Bool
  | .num n => decide (500 ≤ n)
  | _ => false

inductive FsTree where
  | file (size : Nat)
  | dir (entries : List FsTree)
deriving Repr

mutual

def calculateDirectorySize (d : JsDepth) : FsTree → Nat
  | .file sz => sz
  | .dir entries => if jsGeCap d then 0 else entriesSize (jsAddOne d) entries

def entriesSize (d : JsDepth) : List FsTree → Nat
  | [] => 0
  | t :: ts => calculateDirectorySize d t + entriesSize d ts

end

/-- `getVolumeSize` calls `calculateDirectorySize(volumePath)` with the
depth argument omitted, i.e. `currentDepth = undefined` (the
`formatBytes` pretty-printing of the result is not modelled). -/
def getVolumeSize (t : FsTree) : Nat :=
  calculateDirectorySize JsDepth.undef t

/-- A pathological volume directory: a chain of `n` nested directories
with a single file of size 7 at the bottom. -/
def deepChain : Nat → FsTree
  | 0 => .file 7
  | n + 1 => .dir [deepChain n]

theorem jsAddOne_iterate_nan (k : Nat) : jsAddOne^[k] JsDepth.nan = JsDepth.nan := by
  induction k with
  | zero => rfl
  | succ m ih =>
      rw [Function.iterate_succ_apply]
      exact ih

theorem calc_nan_deepChain (n : Nat) :
    calculateDirectorySize JsDepth.nan (deepChain n) = 7 := by
  induction n with
  | zero => rfl
  | succ m ih =>
      simp [deepChain, calculateDirectorySize, entriesSize, jsGeCap, jsAddOne, ih]

theorem calc_num_deepChain_zero (n : Nat) :
    ∀ d : Nat, 1 ≤ n → 501 ≤ d + n →
      calculateDirectorySize (JsDepth.num d) (deepChain n) = 0 := by
  induction n with
  | zero => omega
  | succ m ih =>
      intro d _ hcap
      by_cases hd : 500 ≤ d
      · simp [deepChain, calculateDirectorySize, jsGeCap, hd]
      · have hm : 1 ≤ m := by omega
        have : calculateDirectorySize (JsDepth.num (d + 1)) (deepChain m) = 0 :=
          ih (d + 1) hm (by omega)
        simp [deepChain, calculateDirectorySize, entriesSize, jsGeCap, jsAddOne, hd, this]

/-- Claim C8 is right and the code is wrong: the depth-cap guard
`currentDepth >= 500` can never fire on any call reachable from
`getVolumeSize`, because `getVolumeSize` omits the depth argument —
`currentDepth` starts as `undefined` and every increment yields `NaN`,
for which the comparison is `false`.  On a 600-deep directory chain the
traversal descends all the way and counts the bottom file (result 7),
whereas the guard's own intent (a numeric depth seeded at 0, third
conjunct) would stop at depth 500 and contribute 0 for the deeper
subtree. -/
theorem calculateDirectorySize_depth_cap_never_fires :
    (∀ k : Nat, jsGeCap (jsAddOne^[k] JsDepth.undef) = false) ∧
    getVolumeSize (deepChain 600) = 7 ∧
    calculateDirectorySize (JsDepth.num 0) (deepChain 600) = 0 := by
  refine ⟨?_, ?_, ?_⟩
  · intro k
    match k with
    | 0 => rfl
    | m + 1 =>
        rw [Function.iterate_succ_apply]
        show jsGeCap (jsAddOne^[m] JsDepth.nan) = false
        rw [jsAddOne_iterate_nan]
        rfl
  · show calculateDirectorySize JsDepth.undef (deepChain 600) = 7
    have hstep : ∀ n : Nat, calculateDirectorySize JsDepth.undef (deepChain (n + 1)) = 7 := by
      intro n
      simp [deepChain, calculateDirectorySize, entriesSize, jsGeCap, jsAddOne,
        calc_nan_deepChain n]
    rw [show (600 : Nat) = 599 + 1 by norm_num]
    exact hstep 599
  · exact calc_num_deepChain_zero 600 0 (by omega) (by omega)

/- ### Placeholder substitution (replaceVariables / the {{key}} loops)

Both `replaceVariables` and the URI rewriting in `downloadInstallScripts`
run `content = content.replace(new RegExp(`\x7b\x7b${key}\x7d\x7d`, 'g'), value)`
for each `[key, value]` of the variable map in order.  The dynamic regex
is built UNESCAPED, so its meaning depends on the key's characters: for
a key made only of characters the regex engine treats literally
(alphanumerics and `_`, captured by `regexLiteralKey`), it denotes a
global replace of the literal token `{{key}}` — left to right,
non-overlapping occurrences, no rescan of the substituted value within
the same pass — which is what `replaceAll` implements (strings as
`List Char`, the token as `tokenOf`, the scan fuelled by the string's
length, enough because each step consumes at least one character).
Keys containing regex metacharacters change the matched language
(`.` matches any character, so a key `a.b` also matches `{{axb}}`) or
make the `RegExp` constructor throw (`(` raises a SyntaxError);
likewise `String.replace` treats `$` in the replacement string
specially, so only a `$`-free value (`noDollar`) is inserted verbatim.
Every theorem that draws conclusions from `replaceAll` therefore
restricts keys to `regexLiteralKey` and values to `noDollar`, the range
on which this model is exact. -/

def tokenOf (key : List Char) : List Char :=
  '{' :: '{' :: key ++ ['}', '}']

/-- Bool test that `pat` occurs at the start of `s` (the anchored regex match). -/
def leadsWith : List Char → List Char → Bool
  | [], _ => true
  | _ :: _, [] => false
  | a :: as, b :: bs => a == b && leadsWith as bs

def replaceAllFuel (pat val : List Char) : Nat → List Char → List Char
  | 0, s => s
  | _ + 1, [] => []
  | fuel + 1, c :: rest =>
      if leadsWith pat (c :: rest) then
        val ++ replaceAllFuel pat val fuel (List.drop pat.length (c :: rest))
      else
        c :: replaceAllFuel pat val fuel rest

/-- The global replace `s.replace(regex, val)` in the regime where the
dynamic regex denotes the literal, nonempty pattern `pat` (see the
section comment): left-to-right, non-overlapping, no rescan of `val`. -/
def replaceAll (pat val s : List Char) : List Char :=
  replaceAllFuel pat val s.length s

/-- The per-entry loop shared by `replaceVariables` and
`downloadInstallScripts`: fold the variable map over the content. -/
def substituteVariables (vars : List (List Char × List Char)) (content : List Char) : List Char :=
  vars.foldl (fun c kv => replaceAll (tokenOf kv.1) kv.2 c) content

structure VFile where
  name : List Char
  isDir : Bool
  content : List Char
deriving DecidableEq, Repr

def endsWithJar (name : List Char) : Bool :=
  leadsWith ((".jar").toList.reverse) name.reverse

/-- `replaceVariables(dir, variables)`: for every entry of the flat
directory listing that is a file and does not end in `.jar`, substitute
every map entry into its contents and write it back. -/
def replaceVariables (vars : List (List Char × List Char)) (files : List VFile) : List VFile :=
  files.map (fun f =>
    if f.isDir = false ∧ endsWithJar f.name = false then
      { f with content := substituteVariables vars f.content }
    else f)

/-- Bool substring test (does `pat` occur anywhere in `s`). -/
def hasSub (pat : List Char) : List Char → Bool
  | [] => pat.isEmpty
  | c :: rest => leadsWith pat (c :: rest) || hasSub pat rest

def braceFree (s : List Char) : Bool :=
  s.all (fun c => !(c == '{' || c == '}'))

/-- Characters the regex engine treats literally in a pattern: on keys
made of these, `new RegExp('\x7b\x7b' + key + '\x7d\x7d', 'g')` matches exactly
the literal token `{{key}}`. -/
def regexLiteralChar (c : Char) : Bool :=
  c.isAlphanum || c == '_'

def regexLiteralKey (k : List Char) : Bool :=
  k.all regexLiteralChar

/-- A `$`-free replacement string is inserted verbatim by `String.replace`. -/
def noDollar (s : List Char) : Bool :=
  s.all (fun c => !(c == '$'))

/- ### Unfolding equations and scanning lemmas for replaceAll -/

theorem leadsWith_self_append (p t : List Char) : leadsWith p (p ++ t) = true := by
  induction p with
  | nil => rfl
  | cons a as ih => simp [leadsWith, ih]

theorem leadsWith_nil_false (a : Char) (as : List Char) :
    leadsWith (a :: as) [] = false := rfl

theorem replaceAllFuel_irrel (pat val : List Char) (hp : pat ≠ []) :
    ∀ f1 : Nat, ∀ f2 : Nat, ∀ s : List Char, s.length ≤ f1 → s.length ≤ f2 →
      replaceAllFuel pat val f1 s = replaceAllFuel pat val f2 s := by
  intro f1
  induction f1 with
  | zero =>
      intro f2 s hs1 _
      have : s = [] := List.length_eq_zero.mp (Nat.le_zero.mp hs1)
      subst this
      cases f2 <;> rfl
  | succ g ih =>
      intro f2 s hs1 hs2
      cases s with
      | nil => cases f2 <;> rfl
      | cons c rest =>
          cases f2 with
          | zero => exact absurd hs2 (by simp)
          | succ g2 =>
              have hplen : 1 ≤ pat.length := by
                cases pat with
                | nil => exact absurd rfl hp
                | cons _ _ => simp
              by_cases hl : leadsWith pat (c :: rest) = true
              · have hlen : (List.drop pat.length (c :: rest)).length ≤ g ∧
                    (List.drop pat.length (c :: rest)).length ≤ g2 := by
                  constructor <;>
                    · simp only [List.length_drop, List.length_cons]
                      simp only [List.length_cons] at hs1 hs2
                      omega
                simp only [replaceAllFuel, hl, if_true]
                rw [ih g2 (List.drop pat.length (c :: rest)) hlen.1 hlen.2]
              · have hl' : leadsWith pat (c :: rest) = false := by
                  simpa using hl
                have hlen : rest.length ≤ g ∧ rest.length ≤ g2 := by
                  simp only [List.length_cons] at hs1 hs2
                  omega
                simp only [replaceAllFuel, hl', Bool.false_eq_true, if_false]
                rw [ih g2 rest hlen.1 hlen.2]

theorem replaceAll_nil (pat val : List Char) : replaceAll pat val [] = [] := rfl

theorem replaceAll_neg (pat val : List Char) (c : Char) (rest : List Char)
    (h : leadsWith pat (c :: rest) = false) :
    replaceAll pat val (c :: rest) = c :: replaceAll pat val rest := by
  simp [replaceAll, replaceAllFuel, h]

theorem replaceAllFuel_succ (pat val : List Char) (fuel : Nat) (c : Char) (rest : List Char) :
    replaceAllFuel pat val (fuel + 1) (c :: rest) =
      if leadsWith pat (c :: rest) = true then
        val ++ replaceAllFuel pat val fuel (List.drop pat.length (c :: rest))
      else c :: replaceAllFuel pat val fuel rest := rfl

theorem replaceAll_pos (pat val t : List Char) (hp : pat ≠ []) :
    replaceAll pat val (pat ++ t) = val ++ replaceAll pat val t := by
  obtain ⟨a, as, rfl⟩ : ∃ a as, pat = a :: as := by
    cases pat with
    | nil => exact absurd rfl hp
    | cons a as => exact ⟨a, as, rfl⟩
  have hlw : leadsWith (a :: as) (a :: (as ++ t)) = true := by
    have h0 := leadsWith_self_append (a :: as) t
    simp only [List.cons_append] at h0
    exact h0
  have hdrop : List.drop (a :: as).length (a :: (as ++ t)) = t := by
    simpa using List.drop_left (a :: as) t
  show replaceAll (a :: as) val (a :: (as ++ t)) = val ++ replaceAll (a :: as) val t
  unfold replaceAll
  rw [show (a :: (as ++ t)).length = (as ++ t).length + 1 from by simp]
  rw [replaceAllFuel_succ, if_pos hlw, hdrop]
  rw [replaceAllFuel_irrel (a :: as) val hp ((as ++ t).length) t.length t
    (by simp) (le_refl _)]

/- ### Token boundary analysis

With brace-free keys, a token `{{k}}` can only match at a token boundary:
it never matches at the start of a different key's token, inside a
brace-free segment, or at a closing brace. -/

theorem braceFree_mem (s : List Char) (h : braceFree s = true) (c : Char) (hc : c ∈ s) :
    c ≠ '{' ∧ c ≠ '}' := by
  have := List.all_eq_true.mp h c hc
  constructor
  · intro he
    subst he
    simp at this
  · intro he
    subst he
    simp at this

theorem braceFree_cons_iff (c : Char) (s : List Char) :
    braceFree (c :: s) = true ↔ (c ≠ '{' ∧ c ≠ '}') ∧ braceFree s = true := by
  simp only [braceFree, List.all_cons, Bool.and_eq_true, Bool.not_eq_true',
    Bool.or_eq_false_iff, beq_eq_false_iff_ne]

theorem braceFree_append (s t : List Char) :
    braceFree (s ++ t) = (braceFree s && braceFree t) := by
  simp [braceFree, List.all_append]

theorem braceFree_of_regexLiteralKey (k : List Char) (h : regexLiteralKey k = true) :
    braceFree k = true := by
  simp only [regexLiteralKey, List.all_eq_true] at h
  simp only [braceFree, List.all_eq_true]
  intro c hc
  have h2 := h c hc
  by_cases h3 : c = '{'
  · subst h3
    exact absurd h2 (by decide)
  by_cases h4 : c = '}'
  · subst h4
    exact absurd h2 (by decide)
  · have hb3 : (c == '{') = false := beq_eq_false_iff_ne.mpr h3
    have hb4 : (c == '}') = false := beq_eq_false_iff_ne.mpr h4
    simp [hb3, hb4]

theorem prefixBound (k : List Char) :
    ∀ k' a b : List Char, braceFree k = true → braceFree k' = true →
      leadsWith (k ++ '}' :: a) (k' ++ '}' :: b) = true →
      k = k' ∧ leadsWith a b = true := by
  induction k with
  | nil =>
      intro k' a b _ hk' h
      cases k' with
      | nil =>
          refine ⟨rfl, ?_⟩
          simpa [leadsWith] using h
      | cons c k2 =>
          have hc : c ≠ '{' ∧ c ≠ '}' :=
            braceFree_mem _ hk' c (List.mem_cons_self _ _)
          simp only [List.nil_append, List.cons_append, leadsWith,
            Bool.and_eq_true, beq_iff_eq] at h
          exact absurd h.1.symm hc.2
  | cons d k2 ih =>
      intro k' a b hk hk' h
      have hd : d ≠ '{' ∧ d ≠ '}' :=
        braceFree_mem _ hk d (List.mem_cons_self _ _)
      have hk2 : braceFree k2 = true := ((braceFree_cons_iff d k2).mp hk).2
      cases k' with
      | nil =>
          simp only [List.cons_append, List.nil_append, leadsWith,
            Bool.and_eq_true, beq_iff_eq] at h
          exact absurd h.1 hd.2
      | cons c k2' =>
          have hk2' : braceFree k2' = true := ((braceFree_cons_iff c k2').mp hk').2
          simp only [List.cons_append, leadsWith, Bool.and_eq_true, beq_iff_eq] at h
          obtain ⟨rfl, h2⟩ := h
          obtain ⟨rfl, hab⟩ := ih k2' a b hk2 hk2' h2
          exact ⟨rfl, hab⟩

theorem tokNotLeads (k k' t : List Char) (hne : k ≠ k')
    (hk : braceFree k = true) (hk' : braceFree k' = true) :
    leadsWith (tokenOf k) (tokenOf k' ++ t) = false := by
  by_contra hcontra
  have h : leadsWith (tokenOf k) (tokenOf k' ++ t) = true := by
    simpa using hcontra
  have hshape : leadsWith (k ++ '}' :: ['}']) (k' ++ '}' :: ('}' :: t)) = true := by
    simp only [tokenOf, List.cons_append, leadsWith, List.append_assoc,
      Bool.and_eq_true, beq_self_eq_true, true_and] at h
    simpa using h
  exact hne (prefixBound k k' ['}'] ('}' :: t) hk hk' hshape).1

theorem leadsWith_tok_of_seg_head (k : List Char) (c : Char) (rest : List Char)
    (hc : c ≠ '{') : leadsWith (tokenOf k) (c :: rest) = false := by
  have hbeq : ('{' == c) = false := beq_eq_false_iff_ne.mpr (Ne.symm hc)
  simp [tokenOf, leadsWith, hbeq]

/- ### Chunk decompositions of file contents

A content that interleaves brace-free text segments with `{{key}}` tokens
of the variable map is the shape for which substitution leaves no
residual tokens; `substChunks` is the intended per-chunk effect of the
substitution loop. -/

inductive Chunk where
  | seg (s : List Char)
  | tok (k : List Char)
deriving DecidableEq, Repr

def Chunk.render : Chunk → List Char
  | .seg s => s
  | .tok k => tokenOf k

def renderAll : List Chunk → List Char
  | [] => []
  | c :: cs => c.render ++ renderAll cs

def substChunk (k v : List Char) : Chunk → Chunk
  | .seg s => .seg s
  | .tok k2 => if k2 = k then .seg v else .tok k2

def substChunks : List (List Char × List Char) → List Chunk → List Chunk
  | [], cs => cs
  | kv :: vars, cs => substChunks vars (cs.map (substChunk kv.1 kv.2))

/-- Both components brace-free (enough for one substitution pass). -/
def chunkBF : Chunk → Prop
  | .seg s => braceFree s = true
  | .tok k => braceFree k = true

/-- Well-formed chunk for a key set: brace-free segment, or a token with
a brace-free key drawn from the set. -/
def chunkOK (keys : List (List Char)) : Chunk → Prop
  | .seg s => braceFree s = true
  | .tok k => braceFree k = true ∧ k ∈ keys

theorem chunkBF_of_chunkOK (keys : List (List Char)) (c : Chunk)
    (h : chunkOK keys c) : chunkBF c := by
  cases c with
  | seg s => exact h
  | tok k => exact h.1

theorem replaceAll_skip_seg (k v s t : List Char) (hs : braceFree s = true) :
    replaceAll (tokenOf k) v (s ++ t) = s ++ replaceAll (tokenOf k) v t := by
  induction s with
  | nil => simp
  | cons c s2 ih =>
      have hc := (braceFree_cons_iff c s2).mp hs
      have hlw := leadsWith_tok_of_seg_head k c (s2 ++ t) hc.1.1
      simp only [List.cons_append]
      rw [replaceAll_neg _ _ _ _ hlw, ih hc.2]

theorem replaceAll_hit_tok (k v t : List Char) :
    replaceAll (tokenOf k) v (tokenOf k ++ t) = v ++ replaceAll (tokenOf k) v t :=
  replaceAll_pos (tokenOf k) v t (by simp [tokenOf])

theorem replaceAll_skip_tok (k k2 v t : List Char) (hne : k2 ≠ k)
    (hk : braceFree k = true) (hk2 : braceFree k2 = true) :
    replaceAll (tokenOf k) v (tokenOf k2 ++ t) =
      tokenOf k2 ++ replaceAll (tokenOf k) v t := by
  have h1 : leadsWith (tokenOf k) (tokenOf k2 ++ t) = false :=
    tokNotLeads k k2 t (Ne.symm hne) hk hk2
  have hshape : tokenOf k2 ++ t = '{' :: ('{' :: (k2 ++ ('}' :: '}' :: t))) := by
    simp [tokenOf, List.cons_append, List.append_assoc]
  rw [hshape] at h1 ⊢
  rw [replaceAll_neg _ _ _ _ h1]
  have h2 : leadsWith (tokenOf k) ('{' :: (k2 ++ ('}' :: '}' :: t))) = false := by
    cases k2 with
    | nil =>
        have hb : ('{' == '}') = false := by decide
        simp [tokenOf, leadsWith, hb]
    | cons c k3 =>
        have hc := (braceFree_cons_iff c k3).mp hk2
        have hbeq : ('{' == c) = false := beq_eq_false_iff_ne.mpr (Ne.symm hc.1.1)
        simp [tokenOf, leadsWith, hbeq]
  rw [replaceAll_neg _ _ _ _ h2]
  rw [replaceAll_skip_seg k v k2 ('}' :: '}' :: t) hk2]
  have h4 : leadsWith (tokenOf k) ('}' :: ('}' :: t)) = false :=
    leadsWith_tok_of_seg_head k '}' ('}' :: t) (by decide)
  rw [replaceAll_neg _ _ _ _ h4]
  have h5 : leadsWith (tokenOf k) ('}' :: t) = false :=
    leadsWith_tok_of_seg_head k '}' t (by decide)
  rw [replaceAll_neg _ _ _ _ h5]
  simp [tokenOf, List.cons_append, List.append_assoc]

theorem replaceAll_pass (k v : List Char) (hk : braceFree k = true) :
    ∀ cs : List Chunk, (∀ c ∈ cs, chunkBF c) →
      replaceAll (tokenOf k) v (renderAll cs) = renderAll (cs.map (substChunk k v)) := by
  intro cs
  induction cs with
  | nil =>
      intro _
      simp [renderAll, replaceAll_nil]
  | cons c cs2 ih =>
      intro hall
      have hc : chunkBF c := hall c (List.mem_cons_self _ _)
      have hrest : ∀ x ∈ cs2, chunkBF x := fun x hx => hall x (List.mem_cons_of_mem _ hx)
      cases c with
      | seg s =>
          show replaceAll (tokenOf k) v (s ++ renderAll cs2) = _
          rw [replaceAll_skip_seg k v s _ hc, ih hrest]
          rfl
      | tok k2 =>
          by_cases he : k2 = k
          · subst he
            show replaceAll (tokenOf k2) v (tokenOf k2 ++ renderAll cs2) = _
            rw [replaceAll_hit_tok, ih hrest]
            show v ++ renderAll (List.map (substChunk k2 v) cs2) =
              renderAll (substChunk k2 v (.tok k2) :: List.map (substChunk k2 v) cs2)
            simp [substChunk, renderAll, Chunk.render]
          · show replaceAll (tokenOf k) v (tokenOf k2 ++ renderAll cs2) = _
            rw [replaceAll_skip_tok k k2 v _ he hk hc, ih hrest]
            show tokenOf k2 ++ renderAll (List.map (substChunk k v) cs2) =
              renderAll (substChunk k v (.tok k2) :: List.map (substChunk k v) cs2)
            simp [substChunk, he, renderAll, Chunk.render]

theorem substituteVariables_chunks :
    ∀ (vars : List (List Char × List Char)) (cs : List Chunk),
      (∀ kv ∈ vars, braceFree kv.1 = true ∧ braceFree kv.2 = true) →
      (∀ c ∈ cs, chunkBF c) →
      substituteVariables vars (renderAll cs) = renderAll (substChunks vars cs) := by
  intro vars
  induction vars with
  | nil => intro cs _ _; rfl
  | cons kv vars2 ih =>
      intro cs hvars hcs
      have hkv := hvars kv (List.mem_cons_self _ _)
      show substituteVariables vars2 (replaceAll (tokenOf kv.1) kv.2 (renderAll cs)) =
        renderAll (substChunks vars2 (cs.map (substChunk kv.1 kv.2)))
      rw [replaceAll_pass kv.1 kv.2 hkv.1 cs hcs]
      refine ih (cs.map (substChunk kv.1 kv.2))
        (fun kv2 h2 => hvars kv2 (List.mem_cons_of_mem _ h2)) ?_
      intro c hcmem
      obtain ⟨c0, hc0, rfl⟩ := List.mem_map.mp hcmem
      cases c0 with
      | seg s => exact hcs _ hc0
      | tok k2 =>
          by_cases he : k2 = kv.1
          · show chunkBF (if k2 = kv.1 then Chunk.seg kv.2 else Chunk.tok k2)
            rw [if_pos he]
            exact hkv.2
          · show chunkBF (if k2 = kv.1 then Chunk.seg kv.2 else Chunk.tok k2)
            rw [if_neg he]
            exact hcs _ hc0

theorem substChunks_all_seg :
    ∀ (vars : List (List Char × List Char)) (cs : List Chunk),
      (∀ kv ∈ vars, braceFree kv.2 = true) →
      (∀ c ∈ cs, chunkOK (vars.map Prod.fst) c) →
      ∀ c ∈ substChunks vars cs, ∃ s, c = Chunk.seg s ∧ braceFree s = true := by
  intro vars
  induction vars with
  | nil =>
      intro cs _ hcs c hc
      have h0 := hcs c hc
      cases c with
      | seg s => exact ⟨s, rfl, h0⟩
      | tok k => exact absurd h0.2 (List.not_mem_nil k)
  | cons kv vars2 ih =>
      intro cs hvals hcs c hc
      refine ih (cs.map (substChunk kv.1 kv.2))
        (fun kv2 h => hvals kv2 (List.mem_cons_of_mem _ h)) ?_ c hc
      intro c2 hc2
      obtain ⟨c0, hc0, rfl⟩ := List.mem_map.mp hc2
      have h0 := hcs c0 hc0
      cases c0 with
      | seg s => exact h0
      | tok k2 =>
          by_cases he : k2 = kv.1
          · show chunkOK _ (if k2 = kv.1 then Chunk.seg kv.2 else Chunk.tok k2)
            rw [if_pos he]
            exact hvals kv (List.mem_cons_self _ _)
          · show chunkOK _ (if k2 = kv.1 then Chunk.seg kv.2 else Chunk.tok k2)
            rw [if_neg he]
            have hmem : k2 ∈ List.map Prod.fst vars2 := by
              have h2 := h0.2
              simp only [List.map_cons, List.mem_cons] at h2
              exact h2.resolve_left he
            exact ⟨h0.1, hmem⟩

theorem renderAll_braceFree (cs : List Chunk)
    (h : ∀ c ∈ cs, ∃ s, c = Chunk.seg s ∧ braceFree s = true) :
    braceFree (renderAll cs) = true := by
  induction cs with
  | nil => rfl
  | cons c cs2 ih =>
      obtain ⟨s, rfl, hs⟩ := h c (List.mem_cons_self _ _)
      show braceFree (s ++ renderAll cs2) = true
      rw [braceFree_append]
      simp [hs, ih (fun x hx => h x (List.mem_cons_of_mem _ hx))]

theorem hasSub_tok_of_braceFree (k s : List Char) (h : braceFree s = true) :
    hasSub (tokenOf k) s = false := by
  induction s with
  | nil => simp [hasSub, tokenOf]
  | cons c rest ih =>
      have hc := (braceFree_cons_iff c rest).mp h
      have h1 := leadsWith_tok_of_seg_head k c rest hc.1.1
      simp [hasSub, h1, ih hc.2]

/-- Claim C7 counterexample: the substitution pass does not guarantee
that no `{{key}}` token of the supplied map remains.  With the map
`{a: "\x7b\x7ba\x7d\x7d"}` (a value that reintroduces the token) and a file whose
content is exactly `{{a}}`, the token is replaced by the value — which
is the token again — so after the pass the file still contains `{{a}}`. -/
theorem replaceVariables_residual_token_cex :
    (replaceVariables [(['a'], tokenOf ['a'])]
        [⟨('f' :: '.' :: 't' :: 'x' :: 't' :: []), false, tokenOf ['a']⟩]).map
      (fun g => hasSub (tokenOf ['a']) g.content) = [true] := by
  have h1 : substituteVariables [(['a'], tokenOf ['a'])] (tokenOf ['a']) = tokenOf ['a'] := by
    show replaceAll (tokenOf ['a']) (tokenOf ['a']) (tokenOf ['a']) = tokenOf ['a']
    have h2 := replaceAll_hit_tok ['a'] (tokenOf ['a']) []
    simpa [replaceAll_nil] using h2
  have hcond : endsWithJar ('f' :: '.' :: 't' :: 'x' :: 't' :: []) = false := by decide
  simp only [replaceVariables, List.map_cons, List.map_nil, hcond]
  simp [h1]
  decide

/-- Claim C7 (amended): the pass applies each map entry's global replace
in order, without rescanning substituted values within a pass, so tokens
can survive only when substitution itself recreates them (values or
neighbouring text recombining into a token, as in the counterexample).
Whenever that cannot happen — the file's content decomposes into
brace-free segments interleaved with `{{key}}` tokens of the map's keys,
every key consists of regex-literal characters (so the source's
unescaped `new RegExp` denotes the literal token and cannot match other
keys' tokens or throw), and every value is brace-free and `$`-free (so
`String.replace` inserts it verbatim) — every non-`.jar` file in the
directory has, after the pass, each token replaced by its key's value
(`substChunks`), and its new content is brace-free, hence contains no
`{{key}}` token for any key of the supplied map. -/
theorem replaceVariables_substitution_amended
    (vars : List (List Char × List Char))
    (hvars : ∀ kv ∈ vars, regexLiteralKey kv.1 = true ∧ braceFree kv.2 = true ∧
      noDollar kv.2 = true)
    (files : List VFile) (f : VFile) (hf : f ∈ files)
    (hfile : f.isDir = false) (hjar : endsWithJar f.name = false)
    (cs : List Chunk) (hcs : ∀ c ∈ cs, chunkOK (vars.map Prod.fst) c)
    (hcontent : f.content = renderAll cs) :
    ∃ g ∈ replaceVariables vars files,
      g.name = f.name ∧
      g.content = renderAll (substChunks vars cs) ∧
      braceFree g.content = true ∧
      ∀ kv ∈ vars, hasSub (tokenOf kv.1) g.content = false := by
  have hvarsBF : ∀ kv ∈ vars, braceFree kv.1 = true ∧ braceFree kv.2 = true :=
    fun kv h => ⟨braceFree_of_regexLiteralKey kv.1 (hvars kv h).1, (hvars kv h).2.1⟩
  have hbf : ∀ c ∈ cs, chunkBF c :=
    fun c hc => chunkBF_of_chunkOK (vars.map Prod.fst) c (hcs c hc)
  have hsubst : substituteVariables vars f.content = renderAll (substChunks vars cs) := by
    rw [hcontent]
    exact substituteVariables_chunks vars cs hvarsBF hbf
  have hallseg := substChunks_all_seg vars cs (fun kv h => (hvars kv h).2.1) hcs
  have hbrace : braceFree (renderAll (substChunks vars cs)) = true :=
    renderAll_braceFree _ hallseg
  refine ⟨{ f with content := substituteVariables vars f.content }, ?_, rfl, hsubst, ?_, ?_⟩
  · have hcond : (if f.isDir = false ∧ endsWithJar f.name = false then
        { f with content := substituteVariables vars f.content } else f) =
        { f with content := substituteVariables vars f.content } := by
      rw [if_pos ⟨hfile, hjar⟩]
    exact hcond ▸ List.mem_map_of_mem _ hf
  · show braceFree (substituteVariables vars f.content) = true
    rw [hsubst]
    exact hbrace
  · intro kv hkv
    show hasSub (tokenOf kv.1) (substituteVariables vars f.content) = false
    rw [hsubst]
    exact hasSub_tok_of_braceFree _ _ hbrace

/-- Instantiation of the amended C7 theorem at the specification's own
round-trip example: a file containing `port={{primaryPort}}` and the map
`{primaryPort: "8080"}`. -/
theorem replaceVariables_substitution_amended_witness :
    ∃ g ∈ replaceVariables [((("primaryPort").toList), (("8080").toList))]
        [⟨(("server.properties").toList), false,
          renderAll [Chunk.seg (("port=").toList), Chunk.tok (("primaryPort").toList)]⟩],
      g.name = (("server.properties").toList) ∧
      g.content = renderAll (substChunks [((("primaryPort").toList), (("8080").toList))]
        [Chunk.seg (("port=").toList), Chunk.tok (("primaryPort").toList)]) ∧
      braceFree g.content = true ∧
      ∀ kv ∈ [((("primaryPort").toList), (("8080").toList))],
        hasSub (tokenOf kv.1) g.content = false :=
  replaceVariables_substitution_amended
    [((("primaryPort").toList), (("8080").toList))]
    (by decide)
    [⟨(("server.properties").toList), false,
      renderAll [Chunk.seg (("port=").toList), Chunk.tok (("primaryPort").toList)]⟩]
    ⟨(("server.properties").toList), false,
      renderAll [Chunk.seg (("port=").toList), Chunk.tok (("primaryPort").toList)]⟩
    (List.mem_singleton.mpr rfl)
    rfl
    (by decide)
    [Chunk.seg (("port=").toList), Chunk.tok (("primaryPort").toList)]
    (by
      intro c hc
      rcases List.mem_cons.mp hc with rfl | hc2
      · show braceFree (("port=").toList) = true
        decide
      · rcases List.mem_singleton.mp hc2 with rfl
        show braceFree (("primaryPort").toList) = true ∧
          (("primaryPort").toList) ∈ [((("primaryPort").toList), (("8080").toList))].map Prod.fst
        exact ⟨by decide, by simp⟩)
    rfl

/- ### Script downloads (downloadFile / downloadInstallScripts)

`downloadFile` retries up to `maxAttempts = 3` times: a 522 response
waits and retries (and, if the attempts run out on 522s, the loop simply
exits without error); any other failure retries, and throws only when it
happens on the last attempt.  `downloadInstallScripts` substitutes the
variable map into each script's URI (the same `{{key}}` loop as
`replaceVariables`), downloads it, and catches any download error,
logging it and continuing with the next script.  Outcomes of the
network attempts come from an oracle indexed by attempt number. -/

inductive DlAttempt where
  | ok
  | status522
  | failure
deriving DecidableEq, Repr

def maxAttempts : Nat := 3

def downloadFileAux (outcomes : Nat → DlAttempt) : Nat → Nat → Except String Unit
  | _, 0 => .ok ()
  | attempt, fuel + 1 =>
      match outcomes (attempt + 1) with
      | .ok => .ok ()
      | .status522 => downloadFileAux outcomes (attempt + 1) fuel
      | .failure =>
          if fuel = 0 then .error ("download failed after max attempts")
          else downloadFileAux outcomes (attempt + 1) fuel

def downloadFile (outcomes : Nat → DlAttempt) : Except String Unit :=
  downloadFileAux outcomes 0 maxAttempts

def isOkB : Except String Unit → Bool
  | .ok _ => true
  | .error _ => false

structure InstallScript where
  Uri : List Char
  Path : String
deriving DecidableEq, Repr

/- ### Pipeline events and the createContainer handler -/

inductive PEvent where
  | mkdirVolume (id : String)
  | stateWrite (id : String) (r : StateRecord)
  | imagePull (image : String) (ok : Bool)
  | respond (status : Nat)
  | dockerInspect (name : String)
  | dockerStop (name : String)
  | dockerRemove (name : String)
  | dockerCreate (name : String)
  | scriptDownload (path : String) (ok : Bool)
  | varsReplaced
  | containerStart (name : String)
deriving DecidableEq, Repr

/-- `downloadInstallScripts(installScripts, dir, variables)`: for each
script in order, rewrite `{{key}}` placeholders in its URI from the map,
attempt the download (outcome from the oracle, keyed by destination
path), and log-and-continue on failure — the `ok := false` event is the
logged failure; no error escapes. -/
def downloadInstallScripts (dl : String → Nat → DlAttempt)
    (scripts : List InstallScript) (vars : List (List Char × List Char)) : List PEvent :=
  scripts.map (fun s =>
    let updatedUri := substituteVariables vars s.Uri
    PEvent.scriptDownload s.Path (isOkB (downloadFile (dl s.Path))))

structure CreateReq where
  Image : String
  Id : String
  Env : List String
  PortBindings : List (List String)
  Scripts : Option (List InstallScript)
  varMap : List (List Char × List Char)

/-- `Object.values(PortBindings)[0][0].HostPort`; `none` renders the
TypeError thrown when there is no binding (caught by the outer catch). -/
def primaryPortOf (req : CreateReq) : Option String :=
  match req.PortBindings with
  | (p :: _) :: _ => some p
  | _ => none

def objectToEnv (vars : List (List Char × List Char)) : List String :=
  vars.map (fun kv => String.mk (kv.1 ++ '=' :: kv.2))

/-- Outcome oracle for the runtime/filesystem calls one create request makes. -/
structure CreateEnv where
  mkdirOk : Bool
  pullOk : Bool
  createOk : Bool
  containerId : String
  startOk : Bool
  dl : String → Nat → DlAttempt

structure HandlerResult where
  trace : List PEvent
  table : List (String × StateRecord)
  response : Option Nat

/-- The create pipeline (`createContainer`), step for step:
mkdir the volume (failure → outer catch → FAILED, before any state
write); read the primary port (TypeError when absent → outer catch);
write INSTALLING; pull the image — on failure the inner catch returns a
500 response and the function exits, leaving the INSTALLING record in
place; respond 202; create the container (named `Id`); optionally
download install scripts (failures logged, never thrown) and substitute
variables; start it; write READY with the new container id.  Any error
after the pull lands in the outer catch, which writes FAILED (and sends
nothing further).  The 202 body (message, Env, volumeId) is not
modelled beyond the status. -/
def createContainer (env : CreateEnv) (req : CreateReq)
    (t0 : List (String × StateRecord)) : HandlerResult :=
  if env.mkdirOk then
    match primaryPortOf req with
    | none =>
        { trace := [.mkdirVolume req.Id, .stateWrite req.Id ⟨.FAILED, none⟩],
          table := updateState t0 req.Id .FAILED none,
          response := none }
    | some _primaryPort =>
        let t1 := updateState t0 req.Id .INSTALLING none
        let tr1 := [PEvent.mkdirVolume req.Id, PEvent.stateWrite req.Id ⟨.INSTALLING, none⟩]
        if env.pullOk then
          let tr2 := tr1 ++ [PEvent.imagePull req.Image true, PEvent.respond 202]
          if env.createOk then
            let tr3 := tr2 ++ [PEvent.dockerCreate req.Id]
            let scriptEvs :=
              match req.Scripts with
              | some scripts =>
                  downloadInstallScripts env.dl scripts req.varMap ++ [PEvent.varsReplaced]
              | none => []
            if env.startOk then
              { trace := tr3 ++ scriptEvs ++ [.containerStart req.Id,
                  .stateWrite req.Id ⟨.READY, some env.containerId⟩],
                table := updateState t1 req.Id .READY (some env.containerId),
                response := some 202 }
            else
              { trace := tr3 ++ scriptEvs ++ [.stateWrite req.Id ⟨.FAILED, none⟩],
                table := updateState t1 req.Id .FAILED none,
                response := some 202 }
          else
            { trace := tr2 ++ [.stateWrite req.Id ⟨.FAILED, none⟩],
              table := updateState t1 req.Id .FAILED none,
              response := some 202 }
        else
          { trace := tr1 ++ [.imagePull req.Image false, .respond 500],
            table := t1,
            response := some 500 }
  else
    { trace := [.stateWrite req.Id ⟨.FAILED, none⟩],
      table := updateState t0 req.Id .FAILED none,
      response := none }

def isRespondEvent : PEvent → Bool
  | .respond _ => true
  | _ => false

def isPullEvent : PEvent → Bool
  | .imagePull _ _ => true
  | _ => false

def isCreateEvent : PEvent → Bool
  | .dockerCreate _ => true
  | _ => false

def isScriptEvent : PEvent → Bool
  | .scriptDownload _ _ => true
  | _ => false

def isStartEvent : PEvent → Bool
  | .containerStart _ => true
  | _ => false

theorem downloadInstallScripts_events (dl : String → Nat → DlAttempt)
    (scripts : List InstallScript) (vars : List (List Char × List Char)) :
    ∀ e ∈ downloadInstallScripts dl scripts vars, isScriptEvent e = true := by
  intro e he
  obtain ⟨s, _, rfl⟩ := List.mem_map.mp he
  rfl

/-- Claim C1 counterexample: when the image pull fails (after the
INSTALLING milestone), `createContainer` returns a 500 from the inner
catch, so the outer catch never runs: the record is left at INSTALLING —
not FAILED — after the pipeline has settled.  (No container is created,
which is the part of the claim that does hold.) -/
theorem createContainer_pull_failure_leaves_installing_cex :
    (createContainer ⟨true, false, true, ("cid1"), true, fun _ _ => DlAttempt.ok⟩
        ⟨("img"), ("w1"), [], [[("8080")]], none, []⟩ []).trace =
      [PEvent.mkdirVolume ("w1"), PEvent.stateWrite ("w1") ⟨.INSTALLING, none⟩,
        PEvent.imagePull ("img") false, PEvent.respond 500] ∧
    (createContainer ⟨true, false, true, ("cid1"), true, fun _ _ => DlAttempt.ok⟩
        ⟨("img"), ("w1"), [], [[("8080")]], none, []⟩ []).table =
      [(("w1"), ⟨.INSTALLING, none⟩)] ∧
    getEntry (createContainer ⟨true, false, true, ("cid1"), true, fun _ _ => DlAttempt.ok⟩
        ⟨("img"), ("w1"), [], [[("8080")]], none, []⟩ []).table ("w1") =
      some ⟨.INSTALLING, none⟩ := by
  refine ⟨rfl, rfl, rfl⟩

/-- Claim C1 (amended): after the pipeline settles the persisted state
for the volume id is READY or FAILED in every case except an image-pull
failure: there the handler responds 500 and returns with the record
still at INSTALLING (and no container-create call is made). -/
theorem createContainer_state_convergence_amended
    (env : CreateEnv) (req : CreateReq) (t0 : List (String × StateRecord)) :
    (env.mkdirOk = true → primaryPortOf req ≠ none → env.pullOk = false →
      getEntry (createContainer env req t0).table req.Id = some ⟨.INSTALLING, none⟩ ∧
      (createContainer env req t0).response = some 500 ∧
      ∀ n : String, PEvent.dockerCreate n ∉ (createContainer env req t0).trace) ∧
    (env.mkdirOk = false ∨ primaryPortOf req = none ∨ env.pullOk = true →
      ∃ r : StateRecord, getEntry (createContainer env req t0).table req.Id = some r ∧
        (r.state = .READY ∨ r.state = .FAILED)) := by
  constructor
  · intro hm hp hpull
    obtain ⟨p, hp2⟩ := Option.ne_none_iff_exists'.mp hp
    have hred : createContainer env req t0 =
        { trace := [PEvent.mkdirVolume req.Id, PEvent.stateWrite req.Id ⟨.INSTALLING, none⟩,
            PEvent.imagePull req.Image false, PEvent.respond 500],
          table := updateState t0 req.Id .INSTALLING none,
          response := some 500 } := by
      simp [createContainer, hm, hp2, hpull]
    rw [hred]
    refine ⟨getEntry_setEntry_self t0 req.Id ⟨.INSTALLING, none⟩, rfl, ?_⟩
    intro n
    simp
  · intro hdisj
    cases hmk : env.mkdirOk with
    | false =>
        refine ⟨⟨.FAILED, none⟩, ?_, Or.inr rfl⟩
        simp only [createContainer, hmk, Bool.false_eq_true, if_false]
        exact getEntry_setEntry_self t0 req.Id ⟨.FAILED, none⟩
    | true =>
        cases hpp : primaryPortOf req with
        | none =>
            refine ⟨⟨.FAILED, none⟩, ?_, Or.inr rfl⟩
            simp only [createContainer, hmk, if_true, hpp]
            exact getEntry_setEntry_self t0 req.Id ⟨.FAILED, none⟩
        | some p =>
            cases hpl : env.pullOk with
            | false =>
                exfalso
                rcases hdisj with h | h | h
                · rw [hmk] at h; simp at h
                · rw [hpp] at h; simp at h
                · rw [hpl] at h; simp at h
            | true =>
                cases hcr : env.createOk with
                | false =>
                    refine ⟨⟨.FAILED, none⟩, ?_, Or.inr rfl⟩
                    simp only [createContainer, hmk, if_true, hpp, hpl, hcr,
                      Bool.false_eq_true, if_false]
                    exact getEntry_setEntry_self _ req.Id ⟨.FAILED, none⟩
                | true =>
                    cases hst : env.startOk with
                    | false =>
                        refine ⟨⟨.FAILED, none⟩, ?_, Or.inr rfl⟩
                        simp only [createContainer, hmk, if_true, hpp, hpl, hcr, hst,
                          Bool.false_eq_true, if_false]
                        exact getEntry_setEntry_self _ req.Id ⟨.FAILED, none⟩
                    | true =>
                        refine ⟨⟨.READY, some env.containerId⟩, ?_, Or.inl rfl⟩
                        simp only [createContainer, hmk, if_true, hpp, hpl, hcr, hst]
                        exact getEntry_setEntry_self _ req.Id ⟨.READY, some env.containerId⟩

theorem createContainer_state_convergence_amended_witness :
    getEntry (createContainer ⟨true, false, true, ("cid1"), true, fun _ _ => DlAttempt.ok⟩
        ⟨("img"), ("w1"), [], [[("8080")]], none, []⟩ []).table ("w1") =
      some ⟨.INSTALLING, none⟩ ∧
    (createContainer ⟨true, false, true, ("cid1"), true, fun _ _ => DlAttempt.ok⟩
        ⟨("img"), ("w1"), [], [[("8080")]], none, []⟩ []).response = some 500 ∧
    ∀ n : String, PEvent.dockerCreate n ∉
      (createContainer ⟨true, false, true, ("cid1"), true, fun _ _ => DlAttempt.ok⟩
        ⟨("img"), ("w1"), [], [[("8080")]], none, []⟩ []).trace :=
  (createContainer_state_convergence_amended
      ⟨true, false, true, ("cid1"), true, fun _ _ => DlAttempt.ok⟩
      ⟨("img"), ("w1"), [], [[("8080")]], none, []⟩ []).1
    rfl (by decide) rfl

/-- Claim C5 counterexample: in a successful run the image-pull event
(completed, `ok := true`) sits at index 2 of the trace and the 202
response at index 3 — the response is sent only after the image pull
completes, not as soon as INSTALLING is recorded. -/
theorem createContainer_responds_after_pull_cex :
    List.findIdx? isPullEvent
      (createContainer ⟨true, true, true, ("cid1"), true, fun _ _ => DlAttempt.ok⟩
        ⟨("img"), ("w1"), [], [[("8080")]], none, []⟩ []).trace = some 2 ∧
    List.findIdx? isRespondEvent
      (createContainer ⟨true, true, true, ("cid1"), true, fun _ _ => DlAttempt.ok⟩
        ⟨("img"), ("w1"), [], [[("8080")]], none, []⟩ []).trace = some 3 := by
  refine ⟨rfl, rfl⟩

/-- Claim C5 (amended): the 202 response is sent after the INSTALLING
record and after the image pull completes, but before container
creation, install-script download and container start — the caller
waits for the pull, and only for the pull; everything after the
response carries no further response. -/
theorem createContainer_response_timing_amended
    (env : CreateEnv) (req : CreateReq) (t0 : List (String × StateRecord))
    (hm : env.mkdirOk = true) (p : String) (hp : primaryPortOf req = some p)
    (hpull : env.pullOk = true) :
    ∃ l2 : List PEvent,
      (createContainer env req t0).trace =
        [PEvent.mkdirVolume req.Id, PEvent.stateWrite req.Id ⟨.INSTALLING, none⟩,
          PEvent.imagePull req.Image true, PEvent.respond 202] ++ l2 ∧
      (∀ e ∈ l2, isRespondEvent e = false) ∧
      (∀ e ∈ [PEvent.mkdirVolume req.Id, PEvent.stateWrite req.Id ⟨.INSTALLING, none⟩,
          PEvent.imagePull req.Image true, PEvent.respond 202],
        isCreateEvent e = false ∧ isScriptEvent e = false ∧ isStartEvent e = false) := by
  have hpre : ∀ e ∈ [PEvent.mkdirVolume req.Id, PEvent.stateWrite req.Id ⟨.INSTALLING, none⟩,
      PEvent.imagePull req.Image true, PEvent.respond 202],
      isCreateEvent e = false ∧ isScriptEvent e = false ∧ isStartEvent e = false := by
    intro e he
    simp only [List.mem_cons, List.not_mem_nil, or_false] at he
    rcases he with rfl | rfl | rfl | rfl
    all_goals exact ⟨rfl, rfl, rfl⟩
  have hscripts : ∀ e ∈ (match req.Scripts with
      | some scripts => downloadInstallScripts env.dl scripts req.varMap ++ [PEvent.varsReplaced]
      | none => ([] : List PEvent)), isRespondEvent e = false := by
    cases hsc : req.Scripts with
    | none => intro e he; simp at he
    | some scripts =>
        intro e he
        simp only [List.mem_append, List.mem_singleton] at he
        rcases he with he | rfl
        · obtain ⟨s, _, rfl⟩ := List.mem_map.mp he
          rfl
        · rfl
  cases hcr : env.createOk with
  | false =>
      refine ⟨[PEvent.stateWrite req.Id ⟨.FAILED, none⟩], ?_, ?_, hpre⟩
      · simp [createContainer, hm, hp, hpull, hcr]
      · intro e he
        simp only [List.mem_singleton] at he
        subst he
        rfl
  | true =>
      cases hst : env.startOk with
      | false =>
          refine ⟨PEvent.dockerCreate req.Id ::
            ((match req.Scripts with
              | some scripts => downloadInstallScripts env.dl scripts req.varMap ++ [PEvent.varsReplaced]
              | none => []) ++ [PEvent.stateWrite req.Id ⟨.FAILED, none⟩]), ?_, ?_, hpre⟩
          · simp [createContainer, hm, hp, hpull, hcr, hst]
          · intro e he
            simp only [List.mem_cons, List.mem_append, List.mem_singleton,
              List.not_mem_nil, or_false] at he
            rcases he with rfl | he | rfl
            · rfl
            · exact hscripts e he
            · rfl
      | true =>
          refine ⟨PEvent.dockerCreate req.Id ::
            ((match req.Scripts with
              | some scripts => downloadInstallScripts env.dl scripts req.varMap ++ [PEvent.varsReplaced]
              | none => []) ++ [PEvent.containerStart req.Id,
                PEvent.stateWrite req.Id ⟨.READY, some env.containerId⟩]), ?_, ?_, hpre⟩
          · simp [createContainer, hm, hp, hpull, hcr, hst]
          · intro e he
            simp only [List.mem_cons, List.mem_append, List.mem_singleton,
              List.not_mem_nil, or_false] at he
            rcases he with rfl | he | rfl | rfl
            · rfl
            · exact hscripts e he
            · rfl
            · rfl

theorem createContainer_response_timing_amended_witness :
    ∃ l2 : List PEvent,
      (createContainer ⟨true, true, true, ("cid1"), true, fun _ _ => DlAttempt.ok⟩
        ⟨("img"), ("w1"), [], [[("8080")]], none, []⟩ []).trace =
        [PEvent.mkdirVolume ("w1"), PEvent.stateWrite ("w1") ⟨.INSTALLING, none⟩,
          PEvent.imagePull ("img") true, PEvent.respond 202] ++ l2 ∧
      (∀ e ∈ l2, isRespondEvent e = false) ∧
      (∀ e ∈ [PEvent.mkdirVolume ("w1"), PEvent.stateWrite ("w1") ⟨.INSTALLING, none⟩,
          PEvent.imagePull ("img") true, PEvent.respond 202],
        isCreateEvent e = false ∧ isScriptEvent e = false ∧ isStartEvent e = false) :=
  createContainer_response_timing_amended
    ⟨true, true, true, ("cid1"), true, fun _ _ => DlAttempt.ok⟩
    ⟨("img"), ("w1"), [], [[("8080")]], none, []⟩ [] rfl ("8080") rfl rfl

/-- Claim C6: install-script download failures are not fatal: whatever
the download outcomes (including a script failing every attempt), the
pipeline still attempts every declared script in order (an `ok := false`
event is the logged failure), still proceeds to container start, and the
final persisted state is READY.  The last conjunct checks the retry
bound itself: an always-failing download errors out only after the
`maxAttempts = 3` attempts are exhausted. -/
theorem install_script_failure_nonfatal
    (env : CreateEnv) (req : CreateReq) (t0 : List (String × StateRecord))
    (scripts : List InstallScript)
    (hm : env.mkdirOk = true) (p : String) (hp : primaryPortOf req = some p)
    (hpull : env.pullOk = true) (hcr : env.createOk = true) (hst : env.startOk = true)
    (hs : req.Scripts = some scripts) :
    getEntry (createContainer env req t0).table req.Id =
      some ⟨.READY, some env.containerId⟩ ∧
    (createContainer env req t0).trace =
      [PEvent.mkdirVolume req.Id, PEvent.stateWrite req.Id ⟨.INSTALLING, none⟩,
        PEvent.imagePull req.Image true, PEvent.respond 202, PEvent.dockerCreate req.Id] ++
        downloadInstallScripts env.dl scripts req.varMap ++
        [PEvent.varsReplaced, PEvent.containerStart req.Id,
          PEvent.stateWrite req.Id ⟨.READY, some env.containerId⟩] ∧
    downloadInstallScripts env.dl scripts req.varMap =
      scripts.map (fun s => PEvent.scriptDownload s.Path (isOkB (downloadFile (env.dl s.Path)))) ∧
    (∀ s ∈ scripts, isOkB (downloadFile (env.dl s.Path)) = false →
        PEvent.scriptDownload s.Path false ∈ (createContainer env req t0).trace) ∧
    (∀ o : Nat → DlAttempt, (∀ i : Nat, o i = DlAttempt.failure) →
        downloadFile o = .error ("download failed after max attempts")) := by
  have htrace : (createContainer env req t0).trace =
      [PEvent.mkdirVolume req.Id, PEvent.stateWrite req.Id ⟨.INSTALLING, none⟩,
        PEvent.imagePull req.Image true, PEvent.respond 202, PEvent.dockerCreate req.Id] ++
        downloadInstallScripts env.dl scripts req.varMap ++
        [PEvent.varsReplaced, PEvent.containerStart req.Id,
          PEvent.stateWrite req.Id ⟨.READY, some env.containerId⟩] := by
    simp [createContainer, hm, hp, hpull, hcr, hst, hs]
  refine ⟨?_, htrace, rfl, ?_, ?_⟩
  · simp only [createContainer, hm, if_true, hp, hpull, hcr, hst]
    exact getEntry_setEntry_self _ req.Id ⟨.READY, some env.containerId⟩
  · intro s hsmem hfail
    rw [htrace]
    have hmem : PEvent.scriptDownload s.Path false ∈
        downloadInstallScripts env.dl scripts req.varMap := by
      have : PEvent.scriptDownload s.Path (isOkB (downloadFile (env.dl s.Path))) ∈
          downloadInstallScripts env.dl scripts req.varMap :=
        List.mem_map_of_mem _ hsmem
      rwa [hfail] at this
    simp only [List.mem_append]
    exact Or.inl (Or.inr hmem)
  · intro o ho
    simp [downloadFile, maxAttempts, downloadFileAux, ho 1, ho 2, ho 3]

theorem install_script_failure_nonfatal_witness :
    getEntry (createContainer
        ⟨true, true, true, ("cid1"), true, fun _ _ => DlAttempt.failure⟩
        ⟨("img"), ("w2"), [], [[("8080")]],
          some [⟨(("https://x/install.sh").toList), ("install.sh")⟩], []⟩ []).table ("w2") =
      some ⟨.READY, some ("cid1")⟩ ∧
    (createContainer ⟨true, true, true, ("cid1"), true, fun _ _ => DlAttempt.failure⟩
        ⟨("img"), ("w2"), [], [[("8080")]],
          some [⟨(("https://x/install.sh").toList), ("install.sh")⟩], []⟩ []).trace =
      [PEvent.mkdirVolume ("w2"), PEvent.stateWrite ("w2") ⟨.INSTALLING, none⟩,
        PEvent.imagePull ("img") true, PEvent.respond 202, PEvent.dockerCreate ("w2")] ++
        downloadInstallScripts (fun _ _ => DlAttempt.failure)
          [⟨(("https://x/install.sh").toList), ("install.sh")⟩] [] ++
        [PEvent.varsReplaced, PEvent.containerStart ("w2"),
          PEvent.stateWrite ("w2") ⟨.READY, some ("cid1")⟩] ∧
    downloadInstallScripts (fun _ _ => DlAttempt.failure)
        [⟨(("https://x/install.sh").toList), ("install.sh")⟩] [] =
      ([⟨(("https://x/install.sh").toList), ("install.sh")⟩] : List InstallScript).map
        (fun s => PEvent.scriptDownload s.Path
          (isOkB (downloadFile ((fun (_ : String) (_ : Nat) => DlAttempt.failure) s.Path)))) ∧
    (∀ s ∈ [(⟨(("https://x/install.sh").toList), ("install.sh")⟩ : InstallScript)],
        isOkB (downloadFile ((fun (_ : String) (_ : Nat) => DlAttempt.failure) s.Path)) = false →
        PEvent.scriptDownload s.Path false ∈
          (createContainer ⟨true, true, true, ("cid1"), true, fun _ _ => DlAttempt.failure⟩
            ⟨("img"), ("w2"), [], [[("8080")]],
              some [⟨(("https://x/install.sh").toList), ("install.sh")⟩], []⟩ []).trace) ∧
    (∀ o : Nat → DlAttempt, (∀ i : Nat, o i = DlAttempt.failure) →
        downloadFile o = .error ("download failed after max attempts")) :=
  install_script_failure_nonfatal
    ⟨true, true, true, ("cid1"), true, fun _ _ => DlAttempt.failure⟩
    ⟨("img"), ("w2"), [], [[("8080")]],
      some [⟨(("https://x/install.sh").toList), ("install.sh")⟩], []⟩ []
    [⟨(("https://x/install.sh").toList), ("install.sh")⟩]
    rfl ("8080") rfl rfl rfl rfl rfl

/- ### Redeploy / reinstall (remove-before-create)

`redeployContainer(:id/:Idd)`: write INSTALLING for `Idd`, inspect the
old container `id`, stop it if running, remove it, pull the image, then
create and start the new container (named by the body's `Id`), respond
200 and write READY.  `reinstallContainer` is the same with the install
scripts re-run between create and start, against the previous
environment re-parsed from its `KEY=VALUE` list form (`env2json`).  Any
runtime failure surfaces as a 500 response (pull failure via its inner
catch, everything else via the outer catch); no rollback is attempted.
Docker events appear in the trace only when the corresponding call
succeeds. -/

structure RedeployReq where
  Image : String
  Id : String
  Env : List String
  PortBindings : List (List String)
  imageDataScripts : Option (List InstallScript)

structure RedeployEnv where
  inspectOk : Bool
  running : Bool
  stopOk : Bool
  removeOk : Bool
  pullOk : Bool
  createOk : Bool
  containerId : String
  startOk : Bool
  dl : String → Nat → DlAttempt

/-- `item.split('=')` destructured as `[key, value]`: the key is the text
before the first `=`, the value the text between the first and second
`=` (empty when there is no `=`, where JS would yield `undefined`). -/
def splitEqKey : List Char → List Char
  | [] => []
  | c :: rest => if c = '=' then [] else c :: splitEqKey rest

def splitEqVal : List Char → List Char
  | [] => []
  | c :: rest => if c = '=' then splitEqKey rest else splitEqVal rest

def env2json (envList : List String) : List (List Char × List Char) :=
  envList.map (fun item => (splitEqKey item.toList, splitEqVal item.toList))

def redeployContainer (env : RedeployEnv) (id Idd : String) (req : RedeployReq)
    (t0 : List (String × StateRecord)) : HandlerResult :=
  if env.inspectOk then
    if env.running && !env.stopOk then
      { trace := [PEvent.stateWrite Idd ⟨.INSTALLING, none⟩, PEvent.dockerInspect id],
        table := updateState t0 Idd .INSTALLING none, response := some 500 }
    else if env.removeOk then
      if env.pullOk then
        if env.createOk then
          if env.startOk then
            { trace := ([PEvent.stateWrite Idd ⟨.INSTALLING, none⟩, PEvent.dockerInspect id] ++
                (if env.running then [PEvent.dockerStop id] else []) ++
                [PEvent.dockerRemove id, PEvent.imagePull req.Image true]) ++
                (PEvent.dockerCreate req.Id :: [PEvent.containerStart req.Id,
                  PEvent.respond 200, PEvent.stateWrite Idd ⟨.READY, some env.containerId⟩]),
              table := updateState (updateState t0 Idd .INSTALLING none) Idd .READY
                (some env.containerId),
              response := some 200 }
          else
            { trace := ([PEvent.stateWrite Idd ⟨.INSTALLING, none⟩, PEvent.dockerInspect id] ++
                (if env.running then [PEvent.dockerStop id] else []) ++
                [PEvent.dockerRemove id, PEvent.imagePull req.Image true]) ++
                (PEvent.dockerCreate req.Id :: []),
              table := updateState t0 Idd .INSTALLING none, response := some 500 }
        else
          { trace := [PEvent.stateWrite Idd ⟨.INSTALLING, none⟩, PEvent.dockerInspect id] ++
              (if env.running then [PEvent.dockerStop id] else []) ++
              [PEvent.dockerRemove id, PEvent.imagePull req.Image true],
            table := updateState t0 Idd .INSTALLING none, response := some 500 }
      else
        { trace := [PEvent.stateWrite Idd ⟨.INSTALLING, none⟩, PEvent.dockerInspect id] ++
            (if env.running then [PEvent.dockerStop id] else []) ++
            [PEvent.dockerRemove id, PEvent.imagePull req.Image false, PEvent.respond 500],
          table := updateState t0 Idd .INSTALLING none, response := some 500 }
    else
      { trace := [PEvent.stateWrite Idd ⟨.INSTALLING, none⟩, PEvent.dockerInspect id] ++
          (if env.running then [PEvent.dockerStop id] else []),
        table := updateState t0 Idd .INSTALLING none, response := some 500 }
  else
    { trace := [PEvent.stateWrite Idd ⟨.INSTALLING, none⟩, PEvent.dockerInspect id],
      table := updateState t0 Idd .INSTALLING none, response := some 500 }

def reinstallContainer (env : RedeployEnv) (id Idd : String) (req : RedeployReq)
    (t0 : List (String × StateRecord)) : HandlerResult :=
  if env.inspectOk then
    if env.running && !env.stopOk then
      { trace := [PEvent.stateWrite Idd ⟨.INSTALLING, none⟩, PEvent.dockerInspect id],
        table := updateState t0 Idd .INSTALLING none, response := some 500 }
    else if env.removeOk then
      if env.pullOk then
        if env.createOk then
          if env.startOk then
            { trace := ([PEvent.stateWrite Idd ⟨.INSTALLING, none⟩, PEvent.dockerInspect id] ++
                (if env.running then [PEvent.dockerStop id] else []) ++
                [PEvent.dockerRemove id, PEvent.imagePull req.Image true]) ++
                (PEvent.dockerCreate req.Id ::
                  ((match req.imageDataScripts with
                    | some scripts =>
                        downloadInstallScripts env.dl scripts (env2json req.Env) ++
                          [PEvent.varsReplaced]
                    | none => []) ++
                  [PEvent.containerStart req.Id, PEvent.respond 200,
                    PEvent.stateWrite Idd ⟨.READY, some env.containerId⟩])),
              table := updateState (updateState t0 Idd .INSTALLING none) Idd .READY
                (some env.containerId),
              response := some 200 }
          else
            { trace := ([PEvent.stateWrite Idd ⟨.INSTALLING, none⟩, PEvent.dockerInspect id] ++
                (if env.running then [PEvent.dockerStop id] else []) ++
                [PEvent.dockerRemove id, PEvent.imagePull req.Image true]) ++
                (PEvent.dockerCreate req.Id ::
                  (match req.imageDataScripts with
                    | some scripts =>
                        downloadInstallScripts env.dl scripts (env2json req.Env) ++
                          [PEvent.varsReplaced]
                    | none => [])),
              table := updateState t0 Idd .INSTALLING none, response := some 500 }
        else
          { trace := [PEvent.stateWrite Idd ⟨.INSTALLING, none⟩, PEvent.dockerInspect id] ++
              (if env.running then [PEvent.dockerStop id] else []) ++
              [PEvent.dockerRemove id, PEvent.imagePull req.Image true],
            table := updateState t0 Idd .INSTALLING none, response := some 500 }
      else
        { trace := [PEvent.stateWrite Idd ⟨.INSTALLING, none⟩, PEvent.dockerInspect id] ++
            (if env.running then [PEvent.dockerStop id] else []) ++
            [PEvent.dockerRemove id, PEvent.imagePull req.Image false, PEvent.respond 500],
          table := updateState t0 Idd .INSTALLING none, response := some 500 }
    else
      { trace := [PEvent.stateWrite Idd ⟨.INSTALLING, none⟩, PEvent.dockerInspect id] ++
          (if env.running then [PEvent.dockerStop id] else []),
        table := updateState t0 Idd .INSTALLING none, response := some 500 }
  else
    { trace := [PEvent.stateWrite Idd ⟨.INSTALLING, none⟩, PEvent.dockerInspect id],
      table := updateState t0 Idd .INSTALLING none, response := some 500 }

/-- Remove-before-create, as the spec's call-order assertion: any
container-create call in the trace is preceded by a successful
container-remove call. -/
def removeBeforeCreate (tr : List PEvent) : Prop :=
  ∀ j : Nat, ∀ n : String, tr[j]? = some (PEvent.dockerCreate n) →
    ∃ i : Nat, ∃ m : String, i < j ∧ tr[i]? = some (PEvent.dockerRemove m)

theorem removeBeforeCreate_of_split (pre post : List PEvent) (nm : String)
    (hpre : ∀ n : String, PEvent.dockerCreate n ∉ pre)
    (hrem : PEvent.dockerRemove nm ∈ pre) :
    removeBeforeCreate (pre ++ post) := by
  intro j n hj
  have hjge : pre.length ≤ j := by
    by_contra hlt
    push_neg at hlt
    rw [List.getElem?_append_left hlt] at hj
    exact hpre n (List.mem_iff_getElem?.mpr ⟨j, hj⟩)
  obtain ⟨i, hi⟩ := List.mem_iff_getElem?.mp hrem
  have hilt : i < pre.length := (List.getElem?_eq_some.mp hi).1
  refine ⟨i, nm, lt_of_lt_of_le hilt hjge, ?_⟩
  rw [List.getElem?_append_left hilt]
  exact hi

theorem removeBeforeCreate_of_no_create (tr : List PEvent)
    (h : ∀ n : String, PEvent.dockerCreate n ∉ tr) : removeBeforeCreate tr := by
  intro j n hj
  exact absurd (List.mem_iff_getElem?.mpr ⟨j, hj⟩) (h n)

theorem redeployContainer_rbc (env : RedeployEnv) (id Idd : String) (req : RedeployReq)
    (t0 : List (String × StateRecord)) :
    removeBeforeCreate (redeployContainer env id Idd req t0).trace := by
  cases hins : env.inspectOk with
  | false =>
      apply removeBeforeCreate_of_no_create
      intro n
      simp [redeployContainer, hins]
  | true =>
      cases hsf : env.running && !env.stopOk with
      | true =>
          apply removeBeforeCreate_of_no_create
          intro n
          simp [redeployContainer, hins, hsf]
      | false =>
          cases hrm : env.removeOk with
          | false =>
              apply removeBeforeCreate_of_no_create
              intro n
              cases hr : env.running with
              | false => simp [redeployContainer, hins, hrm, hr]
              | true =>
                  have hstop : env.stopOk = true := by
                    rw [hr] at hsf
                    simpa using hsf
                  simp [redeployContainer, hins, hrm, hr, hstop]
          | true =>
              cases hpl : env.pullOk with
              | false =>
                  apply removeBeforeCreate_of_no_create
                  intro n
                  cases hr : env.running with
                  | false => simp [redeployContainer, hins, hrm, hpl, hr]
                  | true =>
                      have hstop : env.stopOk = true := by
                        rw [hr] at hsf
                        simpa using hsf
                      simp [redeployContainer, hins, hrm, hpl, hr, hstop]
              | true =>
                  cases hcr : env.createOk with
                  | false =>
                      apply removeBeforeCreate_of_no_create
                      intro n
                      cases hr : env.running with
                      | false => simp [redeployContainer, hins, hrm, hpl, hcr, hr]
                      | true =>
                          have hstop : env.stopOk = true := by
                            rw [hr] at hsf
                            simpa using hsf
                          simp [redeployContainer, hins, hrm, hpl, hcr, hr, hstop]
                  | true =>
                      cases hst : env.startOk with
                      | false =>
                          have htr : (redeployContainer env id Idd req t0).trace =
                              ([PEvent.stateWrite Idd ⟨.INSTALLING, none⟩,
                                  PEvent.dockerInspect id] ++
                                (if env.running then [PEvent.dockerStop id] else []) ++
                                [PEvent.dockerRemove id, PEvent.imagePull req.Image true]) ++
                                (PEvent.dockerCreate req.Id :: []) := by
                            simp [redeployContainer, hins, hsf, hrm, hpl, hcr, hst]
                          rw [htr]
                          refine removeBeforeCreate_of_split _ _ id ?_ ?_
                          · intro n
                            cases hr : env.running <;> simp [hr]
                          · cases hr : env.running <;> simp [hr]
                      | true =>
                          have htr : (redeployContainer env id Idd req t0).trace =
                              ([PEvent.stateWrite Idd ⟨.INSTALLING, none⟩,
                                  PEvent.dockerInspect id] ++
                                (if env.running then [PEvent.dockerStop id] else []) ++
                                [PEvent.dockerRemove id, PEvent.imagePull req.Image true]) ++
                                (PEvent.dockerCreate req.Id :: [PEvent.containerStart req.Id,
                                  PEvent.respond 200,
                                  PEvent.stateWrite Idd ⟨.READY, some env.containerId⟩]) := by
                            simp [redeployContainer, hins, hsf, hrm, hpl, hcr, hst]
                          rw [htr]
                          refine removeBeforeCreate_of_split _ _ id ?_ ?_
                          · intro n
                            cases hr : env.running <;> simp [hr]
                          · cases hr : env.running <;> simp [hr]

theorem reinstallContainer_rbc (env : RedeployEnv) (id Idd : String) (req : RedeployReq)
    (t0 : List (String × StateRecord)) :
    removeBeforeCreate (reinstallContainer env id Idd req t0).trace := by
  cases hins : env.inspectOk with
  | false =>
      apply removeBeforeCreate_of_no_create
      intro n
      simp [reinstallContainer, hins]
  | true =>
      cases hsf : env.running && !env.stopOk with
      | true =>
          apply removeBeforeCreate_of_no_create
          intro n
          simp [reinstallContainer, hins, hsf]
      | false =>
          cases hrm : env.removeOk with
          | false =>
              apply removeBeforeCreate_of_no_create
              intro n
              cases hr : env.running with
              | false => simp [reinstallContainer, hins, hrm, hr]
              | true =>
                  have hstop : env.stopOk = true := by
                    rw [hr] at hsf
                    simpa using hsf
                  simp [reinstallContainer, hins, hrm, hr, hstop]
          | true =>
              cases hpl : env.pullOk with
              | false =>
                  apply removeBeforeCreate_of_no_create
                  intro n
                  cases hr : env.running with
                  | false => simp [reinstallContainer, hins, hrm, hpl, hr]
                  | true =>
                      have hstop : env.stopOk = true := by
                        rw [hr] at hsf
                        simpa using hsf
                      simp [reinstallContainer, hins, hrm, hpl, hr, hstop]
              | true =>
                  cases hcr : env.createOk with
                  | false =>
                      apply removeBeforeCreate_of_no_create
                      intro n
                      cases hr : env.running with
                      | false => simp [reinstallContainer, hins, hrm, hpl, hcr, hr]
                      | true =>
                          have hstop : env.stopOk = true := by
                            rw [hr] at hsf
                            simpa using hsf
                          simp [reinstallContainer, hins, hrm, hpl, hcr, hr, hstop]
                  | true =>
                      cases hst : env.startOk with
                      | false =>
                          have htr : (reinstallContainer env id Idd req t0).trace =
                              ([PEvent.stateWrite Idd ⟨.INSTALLING, none⟩,
                                  PEvent.dockerInspect id] ++
                                (if env.running then [PEvent.dockerStop id] else []) ++
                                [PEvent.dockerRemove id, PEvent.imagePull req.Image true]) ++
                                (PEvent.dockerCreate req.Id ::
                                  (match req.imageDataScripts with
                                    | some scripts =>
                                        downloadInstallScripts env.dl scripts (env2json req.Env) ++
                                          [PEvent.varsReplaced]
                                    | none => [])) := by
                            simp [reinstallContainer, hins, hsf, hrm, hpl, hcr, hst]
                          rw [htr]
                          refine removeBeforeCreate_of_split _ _ id ?_ ?_
                          · intro n
                            cases hr : env.running <;> simp [hr]
                          · cases hr : env.running <;> simp [hr]
                      | true =>
                          have htr : (reinstallContainer env id Idd req t0).trace =
                              ([PEvent.stateWrite Idd ⟨.INSTALLING, none⟩,
                                  PEvent.dockerInspect id] ++
                                (if env.running then [PEvent.dockerStop id] else []) ++
                                [PEvent.dockerRemove id, PEvent.imagePull req.Image true]) ++
                                (PEvent.dockerCreate req.Id ::
                                  ((match req.imageDataScripts with
                                    | some scripts =>
                                        downloadInstallScripts env.dl scripts (env2json req.Env) ++
                                          [PEvent.varsReplaced]
                                    | none => []) ++
                                  [PEvent.containerStart req.Id, PEvent.respond 200,
                                    PEvent.stateWrite Idd ⟨.READY, some env.containerId⟩])) := by
                            simp [reinstallContainer, hins, hsf, hrm, hpl, hcr, hst]
                          rw [htr]
                          refine removeBeforeCreate_of_split _ _ id ?_ ?_
                          · intro n
                            cases hr : env.running <;> simp [hr]
                          · cases hr : env.running <;> simp [hr]

/- ### Runtime name-binding model

The runtime contract (RuntimeGateway): `createContainer` fails when a
container with the same name already exists, so a create event binds a
name only when it is absent; a remove event unbinds it.  Under this
contract, any sequence of trace events keeps at most one container
bound to a given workload id at every instant. -/

def applyEvent (s : List String) : PEvent → List String
  | .dockerCreate n => if n ∈ s then s else n :: s
  | .dockerRemove n => s.filter (fun m => !(m == n))
  | _ => s

def applyEvents (s : List String) (evs : List PEvent) : List String :=
  evs.foldl applyEvent s

def countName (s : List String) (n : String) : Nat :=
  (s.filter (fun m => m == n)).length

theorem countName_le_of_sublist (s t : List String) (n : String)
    (h : List.Sublist s t) : countName s n ≤ countName t n :=
  (h.filter _).length_le

theorem countName_zero_of_not_mem (s : List String) (n : String) (h : n ∉ s) :
    countName s n = 0 := by
  induction s with
  | nil => rfl
  | cons a rest ih =>
      have hab : (a == n) = false :=
        beq_eq_false_iff_ne.mpr (fun he => h (he ▸ List.mem_cons_self a rest))
      have ih2 := ih (fun hm => h (List.mem_cons_of_mem a hm))
      simp only [countName, List.filter_cons, hab, Bool.false_eq_true, if_false]
      exact ih2

theorem applyEvent_atMostOne (s : List String) (n : String) (e : PEvent)
    (h : countName s n ≤ 1) : countName (applyEvent s e) n ≤ 1 := by
  cases e with
  | dockerCreate n2 =>
      by_cases hmem : n2 ∈ s
      · simpa [applyEvent, hmem] using h
      · show countName (if n2 ∈ s then s else n2 :: s) n ≤ 1
        rw [if_neg hmem]
        by_cases hn : n2 = n
        · subst hn
          have h0 : countName s n2 = 0 := countName_zero_of_not_mem s n2 hmem
          simp only [countName, List.filter_cons, beq_self_eq_true, if_true, List.length_cons]
          simp only [countName] at h0
          omega
        · have hab : (n2 == n) = false := beq_eq_false_iff_ne.mpr hn
          simp only [countName, List.filter_cons, hab, Bool.false_eq_true, if_false]
          exact h
  | dockerRemove n2 =>
      exact le_trans (countName_le_of_sublist _ s n (List.filter_sublist s)) h
  | mkdirVolume id => exact h
  | stateWrite id r => exact h
  | imagePull im ok => exact h
  | respond st => exact h
  | dockerInspect nm => exact h
  | dockerStop nm => exact h
  | scriptDownload p ok => exact h
  | varsReplaced => exact h
  | containerStart nm => exact h

theorem applyEvents_atMostOne (evs : List PEvent) :
    ∀ (s : List String) (n : String), countName s n ≤ 1 →
      countName (applyEvents s evs) n ≤ 1 := by
  induction evs with
  | nil => intro s n h; exact h
  | cons e rest ih =>
      intro s n h
      exact ih (applyEvent s e) n (applyEvent_atMostOne s n e h)

/-- Claim C4: in every execution of redeploy and reinstall, a
container-create call only ever occurs after a successful
container-remove call (the spec's remove-before-create call-order
assertion); and under the runtime's unique-name contract, any sequence
of such events keeps at most one container bound to a given workload id
at every instant. -/
theorem redeploy_remove_before_create :
    (∀ (env : RedeployEnv) (id Idd : String) (req : RedeployReq)
        (t0 : List (String × StateRecord)),
      removeBeforeCreate (redeployContainer env id Idd req t0).trace) ∧
    (∀ (env : RedeployEnv) (id Idd : String) (req : RedeployReq)
        (t0 : List (String × StateRecord)),
      removeBeforeCreate (reinstallContainer env id Idd req t0).trace) ∧
    (∀ (evs : List PEvent) (s : List String) (n : String),
      countName s n ≤ 1 → countName (applyEvents s evs) n ≤ 1) :=
  ⟨redeployContainer_rbc, reinstallContainer_rbc,
    fun evs s n h => applyEvents_atMostOne evs s n h⟩

theorem redeploy_remove_before_create_witness :
    ((redeployContainer ⟨true, false, true, true, true, true, ("cid2"), true,
        fun _ _ => DlAttempt.ok⟩ ("old") ("w1")
        ⟨("img"), ("w1"), [], [[("8080")]], none⟩ []).trace)[4]? =
      some (PEvent.dockerCreate ("w1")) ∧
    (∃ i : Nat, ∃ m : String, i < 4 ∧
      ((redeployContainer ⟨true, false, true, true, true, true, ("cid2"), true,
          fun _ _ => DlAttempt.ok⟩ ("old") ("w1")
          ⟨("img"), ("w1"), [], [[("8080")]], none⟩ []).trace)[i]? =
        some (PEvent.dockerRemove m)) ∧
    countName [("w1")] ("w1") ≤ 1 ∧
    countName (applyEvents [("w1")]
        [PEvent.dockerRemove ("w1"), PEvent.dockerCreate ("w1")]) ("w1") ≤ 1 :=
  ⟨by decide,
    redeploy_remove_before_create.1
      ⟨true, false, true, true, true, true, ("cid2"), true, fun _ _ => DlAttempt.ok⟩
      ("old") ("w1") ⟨("img"), ("w1"), [], [[("8080")]], none⟩ [] 4 ("w1") (by decide),
    by decide,
    redeploy_remove_before_create.2.2
      [PEvent.dockerRemove ("w1"), PEvent.dockerCreate ("w1")] [("w1")] ("w1") (by decide)⟩
